import Mathlib

/-!
Verification development for the SEC EDGAR filing decomposition and
financial-fact extraction core (package sec_edgar_mcp).

Python strings are modelled as lists of characters (`Str`).  Pure string
manipulation (strip, split, slicing, join, replace, rfind) is translated
directly from the Python builtins used by the source.  Regular-expression
scans over raw filing text are modelled as follows: where the source uses a
regex merely as a tokenizer for a fixed syntactic construct (inline-XBRL fact
tags, context blocks, section-heading matches), the construct is supplied as a
pre-tokenized input and all decision logic operating on it is translated from
the source; where the regex itself is the algorithm (the xmlns prefix scan,
the whitespace-normalisation substitutions), the scan is implemented
character by character with the exact match semantics of the pattern.
Python floats are modelled as exact rationals; the decimal parser covers the
plain decimal / scientific forms (special forms such as inf, nan and
underscore separators are outside the modelled scope).
-/

/-- Python strings are modelled as lists of characters. -/
abbrev Str := List Char

/-- The whitespace characters recognised by Python str.strip / str.split
(ASCII range). -/
def pyIsSpace (c : Char) : Bool :=
  c = ' ' || c = '\t' || c = '\n' || c = '\r' || c = '\x0b' || c = '\x0c'

/-- Left part of Python str.strip: drop leading whitespace. -/
def trimLeft (s : Str) : Str := s.dropWhile pyIsSpace

/-- Right part of Python str.strip: drop trailing whitespace. -/
def trimRight (s : Str) : Str := (s.reverse.dropWhile pyIsSpace).reverse

/-- Python str.strip(). -/
def pyStrip (s : Str) : Str := trimRight (trimLeft s)

/-- Python txt.split(chr(10)): split on newline, keeping empty pieces;
the empty string yields one empty piece. -/
def splitLines : Str → List Str
  | [] => [[]]
  | c :: t =>
    if c = '\n' then [] :: splitLines t
    else
      match splitLines t with
      | [] => [[c]]
      | h :: r => (c :: h) :: r

/-- Python (chr(10)).join(lines). -/
def joinLines : List Str → Str
  | [] => []
  | [l] => l
  | l :: ls => l ++ '\n' :: joinLines ls

/-- One step of the whitespace splitter: accumulate words right-to-left. -/
def splitWsStep (c : Char) (acc : List Str) : List Str :=
  if pyIsSpace c then [] :: acc
  else
    match acc with
    | [] => [[c]]
    | w :: r => (c :: w) :: r

/-- Python s.split() with no separator: split on whitespace runs,
discarding empty words. -/
def pySplitWs (s : Str) : List Str :=
  (s.foldr splitWsStep []).filter (fun w => !w.isEmpty)

/-- Python s[a:b] for 0 ≤ a ≤ b (clamped at the ends like Python slicing). -/
def pySlice (s : Str) (a b : Nat) : Str := (s.drop a).take (b - a)

/-- Numeric value of a digit string (most significant first). -/
def digitsVal (s : Str) : Nat :=
  s.foldl (fun n c => 10 * n + (c.toNat - '0'.toNat)) 0

/-- Break a string at the first character satisfying p (that character goes
to the second component). -/
def breakAt (p : Char → Bool) (s : Str) : Str × Str :=
  (s.takeWhile (fun c => !p c), s.dropWhile (fun c => !p c))

/-- Parse a nonempty all-digit string. -/
def parseUnsignedInt? (s : Str) : Option Nat :=
  if !s.isEmpty && s.all Char.isDigit then some (digitsVal s) else none

/-- Parse the exponent part of a float literal (after the e). -/
def parseExp? : Str → Option Int
  | '+' :: t => (parseUnsignedInt? t).map Int.ofNat
  | '-' :: t => (parseUnsignedInt? t).map (fun n => -(n : Int))
  | t => (parseUnsignedInt? t).map Int.ofNat

/-- Parse the mantissa of a float literal: digits with an optional single
decimal point, at least one digit overall. -/
def parseMantissa? (s : Str) : Option ℚ :=
  let ip := (breakAt (· = '.') s).1
  match (breakAt (· = '.') s).2 with
  | [] => (parseUnsignedInt? ip).map (fun n => (n : ℚ))
  | _ :: fp =>
    if ip.all Char.isDigit && fp.all Char.isDigit && (!ip.isEmpty || !fp.isEmpty)
    then some ((digitsVal ip : ℚ) + (digitsVal fp : ℚ) / (10 : ℚ) ^ fp.length)
    else none

/-- Python float(s) on the plain decimal / scientific forms, as an exact
rational; none when float() would raise ValueError. -/
def pyFloat? (s : Str) : Option ℚ :=
  let sign : ℚ := match s with | '-' :: _ => -1 | _ => 1
  let s1 : Str := match s with | '+' :: t => t | '-' :: t => t | t => t
  let mant := (breakAt (fun c => c = 'e' || c = 'E') s1).1
  match (breakAt (fun c => c = 'e' || c = 'E') s1).2 with
  | [] => (parseMantissa? mant).map (fun m => sign * m)
  | _ :: ex =>
    match parseMantissa? mant, parseExp? ex with
    | some m, some e => some (sign * m * (10 : ℚ) ^ e)
    | _, _ => none

/-- Lowercase a string character-wise (models re.IGNORECASE comparison). -/
def lowerStr (s : Str) : Str := s.map Char.toLower

/-- Substring test: pat occurs contiguously inside s. -/
def containsSub (pat : Str) : Str → Bool
  | [] => pat.isPrefixOf ([] : Str)
  | c :: t => pat.isPrefixOf (c :: t) || containsSub pat t

/- ------------------------------------------------------------------
Inline-XBRL fact extractor
(sec_edgar_mcp/tools/financial.py, FinancialTools._extract_xbrl_concept_value,
lines 787-877).  The six regex patterns of the source scan the raw filing
text for ix:nonFraction / ix:nonNumeric tags whose name attribute (i) ends
with ":" ++ concept, (ii) equals concept, or (iii) contains concept, all
case-insensitively, capturing the nonempty inner text; context blocks
(xbrli:context, matched case-sensitively by id) carry an optional endDate
and instant.  The tag and context constructs are supplied as pre-tokenized
inputs in document order; every decision made on them below is translated
from the source.
------------------------------------------------------------------ -/

/-- Kind of an inline-XBRL fact tag. -/
inductive TagKind
  | nonFraction
  | nonNumeric
deriving DecidableEq

/-- An inline-XBRL fact tag occurrence: the name attribute, the optional
contextRef and scale attributes, and the inner text (the regex group
catching one or more characters other than the tag-opening bracket). -/
structure IxTag where
  kind : TagKind
  name : Str
  contextRef : Option Str
  scale : Option Int
  text : Str
deriving DecidableEq

/-- An xbrli:context block: its id and optional endDate / instant dates. -/
structure XbrlContext where
  id : Str
  endDate : Option Str
  instant : Option Str
deriving DecidableEq

/-- The value field of a returned fact dictionary: a float (modelled as an
exact rational) or the raw text. -/
inductive FactValue
  | num (q : ℚ)
  | text (s : Str)
deriving DecidableEq

/-- The dictionary returned by _extract_xbrl_concept_value.  The scale key is
present only on the numeric branch, so it is an Option here. -/
structure XbrlFact where
  value : FactValue
  raw_value : Str
  period : Option Str
  context_ref : Option Str
  scale : Option Int
  source : Str
deriving DecidableEq

/-- Pattern 1/4 of the source: name attribute ends with ":" ++ concept,
case-insensitively. -/
def patNs (k : TagKind) (concept : Str) (t : IxTag) : Bool :=
  t.kind == k && (lowerStr (':' :: concept)).isSuffixOf (lowerStr t.name)

/-- Pattern 2/5 of the source: name attribute equals concept,
case-insensitively. -/
def patExact (k : TagKind) (concept : Str) (t : IxTag) : Bool :=
  t.kind == k && lowerStr t.name == lowerStr concept

/-- Pattern 3/6 of the source: name attribute contains concept,
case-insensitively. -/
def patSub (k : TagKind) (concept : Str) (t : IxTag) : Bool :=
  t.kind == k && containsSub (lowerStr concept) (lowerStr t.name)

/-- Candidate tags in the priority order of the source's pattern list:
for each of the six patterns in order, all matching tags in document
order. -/
def conceptCandidates (tags : List IxTag) (concept : Str) : List IxTag :=
  tags.filter (patNs .nonFraction concept)
    ++ tags.filter (patExact .nonFraction concept)
    ++ tags.filter (patSub .nonFraction concept)
    ++ tags.filter (patNs .nonNumeric concept)
    ++ tags.filter (patExact .nonNumeric concept)
    ++ tags.filter (patSub .nonNumeric concept)

/-- The placeholder glyphs skipped by the source (the middle one is the
mojibake em-dash of the source file: U+00E2 U+20AC U+201D). -/
def placeholderValues : List Str :=
  ["--".data, "â€”".data, "--06-30".data]

/-- A candidate is viable when its stripped inner text is nonempty and not a
placeholder glyph. -/
def viableTag (t : IxTag) : Bool :=
  let v := pyStrip t.text
  !v.isEmpty && !(placeholderValues.contains v)

/-- re.sub of the character class comma / dollar / parentheses by the empty
string. -/
def numericCleaned (v : Str) : Str :=
  v.filter (fun c => !(c = ',' || c = '$' || c = '(' || c = ')'))

/-- The numeric parse of the source: strip separators and currency symbols,
prepend a minus sign when the raw text carries parentheses, then float(). -/
def parsedDecimal (v : Str) : Option ℚ :=
  let nt := numericCleaned v
  pyFloat? (if v.contains '(' && v.contains ')' then '-' :: nt else nt)

/-- Resolve a contextRef: the first context block with that exact id, then
its endDate, else its instant (none when neither is present or no block
matches). -/
def resolvePeriod (ctxs : List XbrlContext) (ref : Str) : Option Str :=
  (ctxs.find? (fun c => c.id == ref)).bind
    (fun c => c.endDate.orElse (fun _ => c.instant))

/-- Processing of the first viable candidate: numeric branch scales the
parsed decimal by 10^scale (scale attribute, default 0) and resolves the
period; parse failure degrades to a textual fact. -/
def processTag (ctxs : List XbrlContext) (t : IxTag) : XbrlFact :=
  match parsedDecimal (pyStrip t.text) with
  | some d =>
    { value := .num (d * (10 : ℚ) ^ (t.scale.getD 0))
      raw_value := pyStrip t.text
      period := t.contextRef.bind (resolvePeriod ctxs)
      context_ref := t.contextRef
      scale := some (t.scale.getD 0)
      source := "xbrl_direct_extraction".data }
  | none =>
    { value := .text (pyStrip t.text)
      raw_value := pyStrip t.text
      period := none
      context_ref := none
      scale := none
      source := "xbrl_text_extraction".data }

/-- FinancialTools._extract_xbrl_concept_value: first viable candidate in
pattern-priority order, processed; none when no candidate is viable. -/
def extractXbrlConceptValue (tags : List IxTag) (ctxs : List XbrlContext)
    (concept : Str) : Option XbrlFact :=
  ((conceptCandidates tags concept).find? viableTag).map (processTag ctxs)

/- ------------------------------------------------------------------
Company-specific namespace discovery
(sec_edgar_mcp/server.py: get_company_specific_concepts_tool lines 1296-1319,
list_company_specific_concepts_tool lines 1469-1492,
get_segment_revenue_data_tool lines 1646-1682).
The scan implements the source regex on xmlns declarations: at a position
matching the literal xmlns: (case-insensitively), a nonempty maximal letter
run captured by the group, followed by the literal ="http:// (the greedy
letter run admits no shorter backtrack because the following character must
be the equals sign); the url tail takes the remaining non-quote characters,
and scanning resumes after the match, as re.findall does.
------------------------------------------------------------------ -/

/-- ASCII letter (the character class of the capture group, under
re.IGNORECASE). -/
def isAsciiLetter (c : Char) : Bool :=
  ('a' ≤ c && c ≤ 'z') || ('A' ≤ c && c ≤ 'Z')

/-- Attempted capture at a position already matching the literal xmlns:
prefix: the nonempty maximal letter run after it, provided the literal
quote-http tail follows; returns the capture and the position after the
whole match (past the greedy non-quote url run). -/
def nsCapture (l : Str) : Option (Str × Str) :=
  if !((l.drop 6).takeWhile isAsciiLetter).isEmpty
      && (lowerStr "=\"http://".data).isPrefixOf
           (lowerStr ((l.drop 6).drop
             ((l.drop 6).takeWhile isAsciiLetter).length)) then
    some ((l.drop 6).takeWhile isAsciiLetter,
      ((((l.drop 6).drop ((l.drop 6).takeWhile isAsciiLetter).length)).drop
          9).dropWhile (fun d => d ≠ '"'))
  else none

/-- Scanner for the xmlns prefix regex; the fuel argument bounds the number
of scan positions and is instantiated with the text length. -/
def scanNsGo : Nat → Str → List Str
  | 0, _ => []
  | _ + 1, [] => []
  | fuel + 1, c :: t =>
    if (lowerStr "xmlns:".data).isPrefixOf (lowerStr (c :: t)) then
      match nsCapture (c :: t) with
      | some (cap, rest) => cap :: scanNsGo fuel rest
      | none => scanNsGo fuel t
    else scanNsGo fuel t

/-- re.findall of the xmlns prefix pattern over the filing text. -/
def scanNamespaceDecls (txt : Str) : List Str := scanNsGo txt.length txt

/-- The standard-prefix exclusion set of the two concept-listing tools. -/
def standardNamespaces16 : List Str :=
  ["ix", "xsi", "xlink", "link", "xbrldt", "xbrldi", "dei", "us-gaap",
   "country", "currency", "exch", "invest", "naics", "sic", "stpr",
   "utr"].map String.data

/-- The extended exclusion set of the segment-revenue tool. -/
def standardNamespaces21 : List Str :=
  standardNamespaces16 ++ (["srt", "ecd", "xbrli", "ixt", "xs"].map String.data)

/-- Shared namespace filter: deduplicate the scan results (Python set()),
drop standard prefixes and prefixes longer than six characters. -/
def companyNamespaces (standard : List Str) (txt : Str) : List Str :=
  ((scanNamespaceDecls txt).dedup).filter
    (fun ns => !standard.contains ns && ns.length ≤ 6)

/-- Namespace discovery of get_company_specific_concepts_tool. -/
def getCompanySpecificNamespaces (txt : Str) : List Str :=
  companyNamespaces standardNamespaces16 txt

/-- Namespace discovery of list_company_specific_concepts_tool. -/
def listCompanySpecificNamespaces (txt : Str) : List Str :=
  companyNamespaces standardNamespaces16 txt

/-- Namespace discovery of get_segment_revenue_data_tool. -/
def segmentRevenueNamespaces (txt : Str) : List Str :=
  companyNamespaces standardNamespaces21 txt

/- ------------------------------------------------------------------
Theorems: inline-XBRL extraction (claims C1, C5, C6)
------------------------------------------------------------------ -/

/-- The fact tag of the worked example of the spec: an ix:nonFraction tag
for us-gaap:Assets with contextRef c1, scale 3 and displayed text 1,234. -/
def c1ExampleTag : IxTag :=
  { kind := .nonFraction, name := "us-gaap:Assets".data,
    contextRef := some "c1".data, scale := some 3, text := "1,234".data }

/-- The context block of the worked example: id c1, instant 2024-12-31. -/
def c1ExampleContext : XbrlContext :=
  { id := "c1".data, endDate := none, instant := some "2024-12-31".data }

theorem extractXbrl_eq (tags : List IxTag) (ctxs : List XbrlContext) (concept : Str) :
    extractXbrlConceptValue tags ctxs concept =
      ((conceptCandidates tags concept).find? viableTag).map (processTag ctxs) := rfl

/-- C1: when the first viable candidate for "Assets" is the example tag
(ix:nonFraction, name us-gaap:Assets, contextRef c1, scale 3, text "1,234")
and the filing's first context with id c1 is the instant 2024-12-31, the
extractor returns the fact with numeric value 1234000 and period 2024-12-31;
in general, every numeric fact it returns has value equal to the parsed
decimal of its raw text (separators and currency symbols stripped)
multiplied by 10 ^ scale, and an absent scale attribute defaults the scale
exponent to 0. -/
theorem xbrl_extract_scaled_value :
    (∀ tags ctxs,
        (conceptCandidates tags "Assets".data).find? viableTag = some c1ExampleTag →
        ctxs.find? (fun c => c.id == "c1".data) = some c1ExampleContext →
        extractXbrlConceptValue tags ctxs "Assets".data =
          some { value := .num 1234000, raw_value := "1,234".data,
                 period := some "2024-12-31".data, context_ref := some "c1".data,
                 scale := some 3, source := "xbrl_direct_extraction".data }) ∧
    (∀ tags ctxs concept f q,
        extractXbrlConceptValue tags ctxs concept = some f →
        f.value = .num q →
        ∃ d s, parsedDecimal f.raw_value = some d ∧ f.scale = some s ∧
          q = d * (10 : ℚ) ^ s) ∧
    (∀ tags ctxs concept t d,
        (conceptCandidates tags concept).find? viableTag = some t →
        t.scale = none →
        parsedDecimal (pyStrip t.text) = some d →
        ∃ f, extractXbrlConceptValue tags ctxs concept = some f ∧
          f.scale = some 0 ∧ f.value = .num d) := by
  refine ⟨?_, ?_, ?_⟩
  · intro tags ctxs h1 h2
    rw [extractXbrl_eq, h1]
    have hp : parsedDecimal (pyStrip c1ExampleTag.text) =
        some ((1 : ℚ) * ((digitsVal "1234".data : ℕ) : ℚ)) := rfl
    simp only [Option.map_some', processTag, hp]
    have hper : (c1ExampleTag.contextRef.bind (resolvePeriod ctxs)) =
        some "2024-12-31".data := by
      show (resolvePeriod ctxs "c1".data) = some "2024-12-31".data
      unfold resolvePeriod
      rw [h2]
      rfl
    simp only [hper]
    have hval : (1 : ℚ) * ((digitsVal "1234".data : ℕ) : ℚ) *
        (10 : ℚ) ^ (c1ExampleTag.scale.getD 0) = 1234000 := by
      show (1 : ℚ) * ((1234 : ℕ) : ℚ) * (10 : ℚ) ^ (3 : ℤ) = 1234000
      norm_num
    rw [hval]
    rfl
  · intro tags ctxs concept f q hx hv
    rw [extractXbrl_eq] at hx
    cases hfind : (conceptCandidates tags concept).find? viableTag with
    | none => rw [hfind] at hx; exact absurd hx (by simp)
    | some t =>
      rw [hfind] at hx
      simp only [Option.map_some', Option.some.injEq] at hx
      subst hx
      unfold processTag at hv ⊢
      cases hp : parsedDecimal (pyStrip t.text) with
      | none => rw [hp] at hv; exact absurd hv (by simp)
      | some d =>
        rw [hp] at hv ⊢
        simp only [FactValue.num.injEq] at hv
        exact ⟨d, t.scale.getD 0, rfl, rfl, hv.symm⟩
  · intro tags ctxs concept t d hfind hsc hp
    refine ⟨processTag ctxs t, by rw [extractXbrl_eq, hfind]; rfl, ?_⟩
    unfold processTag
    rw [hp, hsc]
    refine ⟨rfl, ?_⟩
    simp only [Option.getD_none, zpow_zero, mul_one]

/-- Witness for C1: the theorem applied to the one-tag, one-context filing
of the worked example. -/
theorem xbrl_extract_scaled_value_witness :
    extractXbrlConceptValue [c1ExampleTag] [c1ExampleContext] "Assets".data =
      some { value := .num 1234000, raw_value := "1,234".data,
             period := some "2024-12-31".data, context_ref := some "c1".data,
             scale := some 3, source := "xbrl_direct_extraction".data } :=
  xbrl_extract_scaled_value.1 [c1ExampleTag] [c1ExampleContext]
    (by decide) (by decide)

/-- C5: a viable candidate whose contextRef matches no context block is still
returned as a numeric fact with its scaled value; its period is unresolved
(none), and the fact is not dropped (the extractor is a total function, so no
exception escapes). -/
theorem xbrl_missing_context_keeps_fact :
    ∀ tags ctxs concept t ref d,
      (conceptCandidates tags concept).find? viableTag = some t →
      t.contextRef = some ref →
      ctxs.find? (fun c => c.id == ref) = none →
      parsedDecimal (pyStrip t.text) = some d →
      extractXbrlConceptValue tags ctxs concept =
        some { value := .num (d * (10 : ℚ) ^ (t.scale.getD 0)),
               raw_value := pyStrip t.text, period := none,
               context_ref := some ref, scale := some (t.scale.getD 0),
               source := "xbrl_direct_extraction".data } := by
  intro tags ctxs concept t ref d hfind href hctx hp
  rw [extractXbrl_eq, hfind]
  simp only [Option.map_some', Option.some.injEq]
  unfold processTag
  rw [hp, href]
  have hres : resolvePeriod ctxs ref = none := by
    unfold resolvePeriod
    rw [hctx]
    rfl
  have hb : (some ref).bind (resolvePeriod ctxs) = resolvePeriod ctxs ref := rfl
  rw [hb, hres]

/-- Witness for C5: a concrete tag referencing context cX in a filing whose
only context block has id cOther. -/
def c5WitnessTag : IxTag :=
  { kind := .nonFraction, name := "us-gaap:Assets".data,
    contextRef := some "cX".data, scale := some 3, text := "1,234".data }

theorem xbrl_missing_context_keeps_fact_witness :
    extractXbrlConceptValue [c5WitnessTag]
        [{ id := "cOther".data, endDate := none, instant := some "2024-12-31".data }]
        "Assets".data =
      some { value := .num ((1 : ℚ) * ((digitsVal "1234".data : ℕ) : ℚ) *
                            (10 : ℚ) ^ (c5WitnessTag.scale.getD 0)),
             raw_value := pyStrip c5WitnessTag.text, period := none,
             context_ref := some "cX".data,
             scale := some (c5WitnessTag.scale.getD 0),
             source := "xbrl_direct_extraction".data } :=
  xbrl_missing_context_keeps_fact [c5WitnessTag]
    [{ id := "cOther".data, endDate := none, instant := some "2024-12-31".data }]
    "Assets".data c5WitnessTag "cX".data
    ((1 : ℚ) * ((digitsVal "1234".data : ℕ) : ℚ))
    (by decide) rfl (by decide) rfl

/-- C6: when the first viable candidate (nonempty, not a placeholder glyph)
fails the numeric parse, the extractor returns a textual fact carrying that
raw text, rather than discarding the fact. -/
theorem xbrl_parse_failure_text_fact :
    ∀ tags ctxs concept t,
      (conceptCandidates tags concept).find? viableTag = some t →
      parsedDecimal (pyStrip t.text) = none →
      extractXbrlConceptValue tags ctxs concept =
        some { value := .text (pyStrip t.text), raw_value := pyStrip t.text,
               period := none, context_ref := none, scale := none,
               source := "xbrl_text_extraction".data } := by
  intro tags ctxs concept t hfind hp
  rw [extractXbrl_eq, hfind]
  simp only [Option.map_some', Option.some.injEq]
  unfold processTag
  rw [hp]

/-- Witness for C6: a concrete nonNumeric tag whose text N/A is not numeric. -/
def c6WitnessTag : IxTag :=
  { kind := .nonNumeric, name := "dei:DocumentType".data,
    contextRef := some "c1".data, scale := none, text := " N/A ".data }

theorem xbrl_parse_failure_text_fact_witness :
    extractXbrlConceptValue [c6WitnessTag] [] "DocumentType".data =
      some { value := .text (pyStrip c6WitnessTag.text),
             raw_value := pyStrip c6WitnessTag.text,
             period := none, context_ref := none, scale := none,
             source := "xbrl_text_extraction".data } :=
  xbrl_parse_failure_text_fact [c6WitnessTag] [] "DocumentType".data c6WitnessTag
    (by decide) rfl

/- ------------------------------------------------------------------
Theorems: company-specific namespace discovery (claim C10)
------------------------------------------------------------------ -/

theorem nsCapture_letters {l cap rest : Str}
    (h : nsCapture l = some (cap, rest)) : cap.all isAsciiLetter = true := by
  unfold nsCapture at h
  split at h
  · simp only [Option.some.injEq, Prod.mk.injEq] at h
    rcases h with ⟨h1, -⟩
    subst h1
    exact List.all_eq_true.2 fun x hx => List.mem_takeWhile_imp hx
  · exact absurd h (by simp)

theorem scanNsGo_letters :
    ∀ fuel l ns, ns ∈ scanNsGo fuel l → ns.all isAsciiLetter = true := by
  intro fuel
  induction fuel with
  | zero => intro l ns h; simp [scanNsGo] at h
  | succ n ih =>
    intro l ns h
    match l with
    | [] => simp [scanNsGo] at h
    | c :: t =>
      rw [scanNsGo] at h
      split at h
      · cases hcap : nsCapture (c :: t) with
        | none => rw [hcap] at h; exact ih _ _ h
        | some pr =>
          obtain ⟨cap, rest⟩ := pr
          rw [hcap] at h
          rcases List.mem_cons.1 h with h | h
          · subst h
            exact nsCapture_letters hcap
          · exact ih _ _ h
      · exact ih _ _ h

/-- C10: every namespace prefix reported as company-specific by any of the
three discovery sites (get_company_specific_concepts,
list_company_specific_concepts, get_segment_revenue_data) consists only of
letters and has length at most six; consequently an xmlns-declared prefix
containing a digit or hyphen, or longer than six characters, is never
returned, whatever the exclusion set. -/
theorem company_namespace_shape :
    (∀ std txt ns, ns ∈ companyNamespaces std txt →
        ns.all isAsciiLetter = true ∧ ns.length ≤ 6) ∧
    (∀ txt ns, ns ∈ getCompanySpecificNamespaces txt →
        ns.all isAsciiLetter = true ∧ ns.length ≤ 6) ∧
    (∀ txt ns, ns ∈ listCompanySpecificNamespaces txt →
        ns.all isAsciiLetter = true ∧ ns.length ≤ 6) ∧
    (∀ txt ns, ns ∈ segmentRevenueNamespaces txt →
        ns.all isAsciiLetter = true ∧ ns.length ≤ 6) := by
  have base : ∀ std txt ns, ns ∈ companyNamespaces std txt →
      ns.all isAsciiLetter = true ∧ ns.length ≤ 6 := by
    intro std txt ns h
    unfold companyNamespaces at h
    rcases List.mem_filter.1 h with ⟨hmem, hcond⟩
    rw [Bool.and_eq_true] at hcond
    rcases hcond with ⟨-, hlen⟩
    refine ⟨?_, of_decide_eq_true hlen⟩
    exact scanNsGo_letters _ _ _ (List.mem_dedup.1 hmem)
  exact ⟨base, fun txt => base standardNamespaces16 txt,
    fun txt => base standardNamespaces16 txt,
    fun txt => base standardNamespaces21 txt⟩

/-- Witness for C10: a concrete filing text declaring prefix abcd, reported
as company-specific, is all-letter and short. -/
theorem company_namespace_shape_witness :
    ("abcd".data.all isAsciiLetter = true ∧ "abcd".data.length ≤ 6) :=
  company_namespace_shape.2.1 "xmlns:abcd=\"http://example.com/ns\"".data
    "abcd".data (by decide)

/- ------------------------------------------------------------------
Chunker (sec_edgar_mcp/document_parser.py, SECDocumentParser.chunk_content
lines 463-505 and chunk_by_sections lines 507-547).  The while loop of
chunk_content is split into a span generator (start/end offsets, whose
computation never depends on the emitted chunks) and a chunk builder that
strips each span's substring, skips empty chunks and numbers the kept ones,
exactly as the loop body does.  The span generator recurses on a fuel
argument instantiated with the content length; the loop advances its start
offset by at least one per iteration, so this fuel is sufficient (proved
below as the termination theorem).
------------------------------------------------------------------ -/

/-- The metadata dictionary attached to chunks; each optional field models
the presence of the corresponding dictionary key. -/
structure ChunkMeta where
  start_pos : Option Nat := none
  end_pos : Option Nat := none
  total_length : Option Nat := none
  section_type : Option Str := none
  is_complete_section : Option Bool := none
  word_count : Option Nat := none
  char_count : Option Nat := none
  total_section_chunks : Option Nat := none
  section_word_count : Option Nat := none
  section_char_count : Option Nat := none
deriving DecidableEq

/-- DocumentChunk: content, owning section name, 0-based ordinal, metadata,
and the derived counts computed by the constructor. -/
structure DocumentChunk where
  content : Str
  section_name : Str
  chunk_index : Nat
  metadata : ChunkMeta
  word_count : Nat
  char_count : Nat
deriving DecidableEq

/-- The DocumentChunk constructor: word and char counts are derived from
the content. -/
def mkDocumentChunk (content section_name : Str) (chunk_index : Nat)
    (metadata : ChunkMeta) : DocumentChunk :=
  { content := content, section_name := section_name,
    chunk_index := chunk_index, metadata := metadata,
    word_count := (pySplitWs content).length, char_count := content.length }

/-- Python hay.rfind(pat, a, b): the greatest index i with a ≤ i, the match
fitting inside the clamped window, and pat occurring at i; none models the
-1 result (the source only compares it with a greater-than test). -/
def pyRfind (hay pat : Str) (a b : Nat) : Option Nat :=
  ((List.range (hay.length + 1)).filter (fun i =>
    decide (a ≤ i) && decide (i + pat.length ≤ min b hay.length)
      && (pySlice hay i (i + pat.length) == pat))).getLast?

/-- The end offset of the chunk starting at start: tentative end at
start + chunk_size clamped to the length; when a break is needed, snap to
the nearest paragraph break past the midpoint, else to a sentence break
past the midpoint, else keep the hard cutoff. -/
def chunkEnd (content : Str) (chunk_size start : Nat) : Nat :=
  if min (start + chunk_size) content.length < content.length then
    match pyRfind content "\n\n".data start
        (min (start + chunk_size) content.length) with
    | some p =>
      if start + chunk_size / 2 < p then p + 2
      else
        match pyRfind content ". ".data start
            (min (start + chunk_size) content.length) with
        | some q =>
          if start + chunk_size / 2 < q then q + 2
          else min (start + chunk_size) content.length
        | none => min (start + chunk_size) content.length
    | none =>
      match pyRfind content ". ".data start
          (min (start + chunk_size) content.length) with
      | some q =>
        if start + chunk_size / 2 < q then q + 2
        else min (start + chunk_size) content.length
      | none => min (start + chunk_size) content.length
  else min (start + chunk_size) content.length

/-- The loop's advance: start becomes max(end - overlap_size, start + 1),
always at least one past the previous start. -/
def chunkNextStart (e s overlap : Nat) : Nat := max (e - overlap) (s + 1)

/-- The start/end spans produced by the chunk_content loop; fuel bounds the
number of iterations. -/
def chunkSpans (content : Str) (chunk_size overlap : Nat) :
    Nat → Nat → List (Nat × Nat)
  | 0, _ => []
  | fuel + 1, start =>
    if start < content.length then
      (start, chunkEnd content chunk_size start) ::
        chunkSpans content chunk_size overlap fuel
          (chunkNextStart (chunkEnd content chunk_size start) start overlap)
    else []

/-- The chunk-emitting part of the loop body: strip the span's substring,
skip it when empty, otherwise emit it with the running chunk index and the
span metadata. -/
def buildChunks (content section_name : Str) :
    List (Nat × Nat) → Nat → List DocumentChunk
  | [], _ => []
  | (s, e) :: rest, idx =>
    if (pyStrip (pySlice content s e)).isEmpty then
      buildChunks content section_name rest idx
    else
      mkDocumentChunk (pyStrip (pySlice content s e)) section_name idx
          { start_pos := some s, end_pos := some e,
            total_length := some content.length }
        :: buildChunks content section_name rest (idx + 1)

/-- SECDocumentParser.chunk_content. -/
def chunk_content (content : Str) (chunk_size overlap : Nat)
    (section_name : Str) : List DocumentChunk :=
  buildChunks content section_name
    (chunkSpans content chunk_size overlap content.length 0) 0

/-- FilingSection: name, content, canonical section type, and the derived
counts computed by the constructor. -/
structure FilingSection where
  name : Str
  content : Str
  section_type : Str
  word_count : Nat
  char_count : Nat
deriving DecidableEq

/-- The FilingSection constructor: word count by whitespace split, char
count by length. -/
def mkFilingSection (name content section_type : Str) : FilingSection :=
  { name := name, content := content, section_type := section_type,
    word_count := (pySplitWs content).length, char_count := content.length }

/-- Per-section branch of chunk_by_sections: a section fitting in one chunk
becomes a single complete-section chunk; a larger section delegates to
chunk_content and tags every resulting chunk with its section linkage. -/
def chunksForSection (chunk_size overlap : Nat) (sec : FilingSection) :
    List DocumentChunk :=
  if sec.content.length ≤ chunk_size then
    [mkDocumentChunk sec.content sec.name 0
      { section_type := some sec.section_type,
        is_complete_section := some true,
        word_count := some sec.word_count,
        char_count := some sec.char_count }]
  else
    (chunk_content sec.content chunk_size overlap sec.name).map fun c =>
      { c with metadata :=
          { c.metadata with
              section_type := some sec.section_type
              is_complete_section := some false
              total_section_chunks :=
                some (chunk_content sec.content chunk_size overlap
                  sec.name).length
              section_word_count := some sec.word_count
              section_char_count := some sec.char_count } }

/-- SECDocumentParser.chunk_by_sections: concatenation of each section's
chunks in order. -/
def chunk_by_sections (sections : List FilingSection)
    (chunk_size overlap : Nat) : List DocumentChunk :=
  (sections.map (chunksForSection chunk_size overlap)).flatten

/-- Concatenation of the chunks' non-overlapping cores: each chunk's content
restricted to the part not re-covered by the following chunk (by its
start_pos), the last chunk contributing whole. -/
def chunkCoresConcat : List DocumentChunk → Str
  | [] => []
  | [c] => c.content
  | c :: c2 :: rest =>
    c.content.take (c2.metadata.start_pos.getD 0 - c.metadata.start_pos.getD 0)
      ++ chunkCoresConcat (c2 :: rest)

/- ------------------------------------------------------------------
Chunker lemmas and theorems (claims C2, C9)
------------------------------------------------------------------ -/

theorem pyRfind_bounds {hay pat : Str} {a b i : Nat}
    (h : pyRfind hay pat a b = some i) :
    a ≤ i ∧ i + pat.length ≤ min b hay.length := by
  unfold pyRfind at h
  obtain ⟨hne, heq⟩ := List.mem_getLast?_eq_getLast (Option.mem_def.2 h)
  have hmem : i ∈ (List.range (hay.length + 1)).filter (fun i =>
      decide (a ≤ i) && decide (i + pat.length ≤ min b hay.length)
        && (pySlice hay i (i + pat.length) == pat)) := by
    rw [heq]; exact List.getLast_mem hne
  rcases List.mem_filter.1 hmem with ⟨-, hcond⟩
  rw [Bool.and_eq_true, Bool.and_eq_true] at hcond
  exact ⟨of_decide_eq_true hcond.1.1, of_decide_eq_true hcond.1.2⟩

theorem chunkEnd_le (content : Str) (cs s : Nat) :
    chunkEnd content cs s ≤ content.length := by
  have h2 : ("\n\n".data : Str).length = 2 := rfl
  have h3 : (". ".data : Str).length = 2 := rfl
  unfold chunkEnd
  split
  · split
    · rename_i p hp
      have hb := pyRfind_bounds hp
      split
      · omega
      · split
        · rename_i q hq
          have hb2 := pyRfind_bounds hq
          split
          · omega
          · omega
        · omega
    · split
      · rename_i q hq
        have hb2 := pyRfind_bounds hq
        split
        · omega
        · omega
      · omega
  · omega

theorem lt_chunkEnd (content : Str) (cs s : Nat) (hcs : 1 ≤ cs)
    (hs : s < content.length) : s < chunkEnd content cs s := by
  unfold chunkEnd
  split
  · split
    · rename_i p hp
      split
      · rename_i hmid
        omega
      · split
        · rename_i q hq
          split
          · rename_i hmid2
            omega
          · omega
        · omega
    · split
      · rename_i q hq
        split
        · rename_i hmid2
          omega
        · omega
      · omega
  · omega

theorem chunkEnd_eq_length (content : Str) (cs s : Nat)
    (h : content.length ≤ s + cs) : chunkEnd content cs s = content.length := by
  have hmin : min (s + cs) content.length = content.length := by omega
  unfold chunkEnd
  rw [hmin]
  split
  · omega
  · rfl

theorem le_chunkNextStart (e s ov : Nat) : s + 1 ≤ chunkNextStart e s ov :=
  le_max_right _ _

theorem chunkNextStart_le (e s ov : Nat) (h : s + 1 ≤ e) :
    chunkNextStart e s ov ≤ e := by
  unfold chunkNextStart
  omega

theorem chunkSpans_length_le_fuel (content : Str) (cs ov : Nat) :
    ∀ fuel s, (chunkSpans content cs ov fuel s).length ≤ fuel := by
  intro fuel
  induction fuel with
  | zero => intro s; simp [chunkSpans]
  | succ n ih =>
    intro s
    rw [chunkSpans]
    split
    · simpa using Nat.succ_le_succ (ih _)
    · simp

theorem buildChunks_length_le (content sn : Str) :
    ∀ spans idx, (buildChunks content sn spans idx).length ≤ spans.length := by
  intro spans
  induction spans with
  | nil => intro idx; simp [buildChunks]
  | cons sp rest ih =>
    intro idx
    obtain ⟨s, e⟩ := sp
    rw [buildChunks]
    split
    · exact le_trans (ih idx) (by simp)
    · simpa using Nat.succ_le_succ (ih (idx + 1))

theorem chunkSpans_fuel_irrel (content : Str) (cs ov : Nat) :
    ∀ f1 f2 s, content.length ≤ s + f1 → content.length ≤ s + f2 →
      chunkSpans content cs ov f1 s = chunkSpans content cs ov f2 s := by
  intro f1
  induction f1 with
  | zero =>
    intro f2 s h1 h2
    cases f2 with
    | zero => rfl
    | succ m =>
      rw [chunkSpans, chunkSpans, if_neg (by omega)]
  | succ n ih =>
    intro f2 s h1 h2
    cases f2 with
    | zero =>
      rw [chunkSpans, chunkSpans, if_neg (by omega)]
    | succ m =>
      by_cases hs : s < content.length
      · rw [chunkSpans, chunkSpans, if_pos hs, if_pos hs]
        congr 1
        have hadv := le_chunkNextStart (chunkEnd content cs s) s ov
        exact ih m _ (by omega) (by omega)
      · rw [chunkSpans, chunkSpans, if_neg hs, if_neg hs]

/-- C9: the chunk_content loop terminates because each iteration advances
the start offset by at least one: the advance is bounded below, the span
generator is insensitive to any fuel of at least the content length (so the
loop completes within length-many iterations), and the number of chunks is
at most the content length, for every overlap including overlap ≥
chunk_size. -/
theorem chunk_content_termination :
    ∀ (content : Str) (cs ov : Nat) (sn : Str), 1 ≤ cs →
      (∀ e s, s + 1 ≤ chunkNextStart e s ov) ∧
      (∀ fuel, content.length ≤ fuel →
        chunkSpans content cs ov fuel 0 =
          chunkSpans content cs ov content.length 0) ∧
      (chunk_content content cs ov sn).length ≤ content.length := by
  intro content cs ov sn _
  refine ⟨fun e s => le_chunkNextStart e s ov, ?_, ?_⟩
  · intro fuel hf
    exact chunkSpans_fuel_irrel content cs ov fuel content.length 0
      (by omega) (by omega)
  · exact le_trans (buildChunks_length_le content sn _ 0)
      (chunkSpans_length_le_fuel content cs ov content.length 0)

/-- Witness for C9 at a concrete content and chunk size one. -/
theorem chunk_content_termination_witness :
    (chunk_content "ab".data 1 0 "s".data).length ≤ ("ab".data : Str).length :=
  (chunk_content_termination "ab".data 1 0 "s".data (by decide)).2.2

theorem pySlice_isEmpty_false (content : Str) {s e : Nat}
    (hs : s < content.length) (hse : s < e) :
    (pySlice content s e).isEmpty = false := by
  have hlen : (pySlice content s e).length = min (e - s) (content.length - s) := by
    simp [pySlice, List.length_take, List.length_drop]
  have hpos : 0 < (pySlice content s e).length := by omega
  cases hsl : pySlice content s e with
  | nil => rw [hsl] at hpos; simp at hpos
  | cons a t => rfl

theorem pySlice_to_end (content : Str) (s : Nat) :
    pySlice content s content.length = content.drop s := by
  unfold pySlice
  exact List.take_of_length_le (by simp [List.length_drop])

theorem pySlice_take (content : Str) {s s2 e : Nat} (h1 : s ≤ s2) (h2 : s2 ≤ e) :
    (pySlice content s e).take (s2 - s) = pySlice content s s2 := by
  unfold pySlice
  rw [List.take_take]
  congr 1
  omega

theorem pySlice_append_drop (content : Str) {s s2 : Nat} (h : s ≤ s2) :
    pySlice content s s2 ++ content.drop s2 = content.drop s := by
  unfold pySlice
  have hd : content.drop s2 = (content.drop s).drop (s2 - s) := by
    rw [List.drop_drop]
    congr 1
    omega
  rw [hd, List.take_append_drop]

theorem chunks_cores_drop (content : Str) (cs ov : Nat) (sn : Str)
    (hcs : 1 ≤ cs) :
    ∀ fuel s idx,
      content.length ≤ s + fuel →
      s < content.length →
      (∀ sp ∈ chunkSpans content cs ov fuel s,
        pyStrip (pySlice content sp.1 sp.2) = pySlice content sp.1 sp.2) →
      chunkCoresConcat
          (buildChunks content sn (chunkSpans content cs ov fuel s) idx)
        = content.drop s := by
  intro fuel
  induction fuel with
  | zero => intro s idx h1 h2 _; omega
  | succ n ih =>
    intro s idx h1 h2 hneu
    have hspans : chunkSpans content cs ov (n + 1) s =
        (s, chunkEnd content cs s) ::
          chunkSpans content cs ov n
            (chunkNextStart (chunkEnd content cs s) s ov) := by
      rw [chunkSpans, if_pos h2]
    have hse : s < chunkEnd content cs s := lt_chunkEnd content cs s hcs h2
    have hele : chunkEnd content cs s ≤ content.length := chunkEnd_le content cs s
    have hs2ge : s + 1 ≤ chunkNextStart (chunkEnd content cs s) s ov :=
      le_chunkNextStart _ _ _
    have hs2le : chunkNextStart (chunkEnd content cs s) s ov ≤
        chunkEnd content cs s := chunkNextStart_le _ _ _ (by omega)
    have hneu0 : pyStrip (pySlice content s (chunkEnd content cs s)) =
        pySlice content s (chunkEnd content cs s) :=
      hneu (s, chunkEnd content cs s)
        (by rw [hspans]; exact List.mem_cons_self _ _)
    have hkeep : (pyStrip (pySlice content s (chunkEnd content cs s))).isEmpty
        = false := by
      rw [hneu0]
      exact pySlice_isEmpty_false content h2 hse
    rw [hspans, buildChunks]
    simp only [hkeep, Bool.false_eq_true, if_false]
    by_cases hs2 : chunkNextStart (chunkEnd content cs s) s ov < content.length
    · obtain ⟨m, rfl⟩ : ∃ m, n = m + 1 := ⟨n - 1, by omega⟩
      have hspans2 : chunkSpans content cs ov (m + 1)
          (chunkNextStart (chunkEnd content cs s) s ov) =
          (chunkNextStart (chunkEnd content cs s) s ov,
            chunkEnd content cs (chunkNextStart (chunkEnd content cs s) s ov)) ::
            chunkSpans content cs ov m
              (chunkNextStart
                (chunkEnd content cs (chunkNextStart (chunkEnd content cs s) s ov))
                (chunkNextStart (chunkEnd content cs s) s ov) ov) := by
        rw [chunkSpans, if_pos hs2]
      have hse2 : chunkNextStart (chunkEnd content cs s) s ov <
          chunkEnd content cs (chunkNextStart (chunkEnd content cs s) s ov) :=
        lt_chunkEnd content cs _ hcs hs2
      have hneu2 : pyStrip (pySlice content
          (chunkNextStart (chunkEnd content cs s) s ov)
          (chunkEnd content cs (chunkNextStart (chunkEnd content cs s) s ov))) =
          pySlice content (chunkNextStart (chunkEnd content cs s) s ov)
            (chunkEnd content cs (chunkNextStart (chunkEnd content cs s) s ov)) :=
        hneu _ (by
          rw [hspans]
          exact List.mem_cons_of_mem _ (by
            rw [hspans2]
            exact List.mem_cons_self _ _))
      have hkeep2 : (pyStrip (pySlice content
          (chunkNextStart (chunkEnd content cs s) s ov)
          (chunkEnd content cs
            (chunkNextStart (chunkEnd content cs s) s ov)))).isEmpty = false := by
        rw [hneu2]
        exact pySlice_isEmpty_false content hs2 hse2
      have hbuild2 : buildChunks content sn
          (chunkSpans content cs ov (m + 1)
            (chunkNextStart (chunkEnd content cs s) s ov)) (idx + 1) =
          mkDocumentChunk
            (pyStrip (pySlice content
              (chunkNextStart (chunkEnd content cs s) s ov)
              (chunkEnd content cs
                (chunkNextStart (chunkEnd content cs s) s ov))))
            sn (idx + 1)
            { start_pos := some (chunkNextStart (chunkEnd content cs s) s ov),
              end_pos := some (chunkEnd content cs
                (chunkNextStart (chunkEnd content cs s) s ov)),
              total_length := some content.length } ::
            buildChunks content sn
              (chunkSpans content cs ov m
                (chunkNextStart
                  (chunkEnd content cs
                    (chunkNextStart (chunkEnd content cs s) s ov))
                  (chunkNextStart (chunkEnd content cs s) s ov) ov))
              (idx + 2) := by
        rw [hspans2, buildChunks]
        simp only [hkeep2, Bool.false_eq_true, if_false]
      rw [hbuild2, chunkCoresConcat]
      have hstarts : (mkDocumentChunk
          (pyStrip (pySlice content
            (chunkNextStart (chunkEnd content cs s) s ov)
            (chunkEnd content cs
              (chunkNextStart (chunkEnd content cs s) s ov))))
          sn (idx + 1)
          { start_pos := some (chunkNextStart (chunkEnd content cs s) s ov),
            end_pos := some (chunkEnd content cs
              (chunkNextStart (chunkEnd content cs s) s ov)),
            total_length := some content.length }).metadata.start_pos.getD 0
          - (mkDocumentChunk (pyStrip (pySlice content s (chunkEnd content cs s)))
              sn idx
              { start_pos := some s,
                end_pos := some (chunkEnd content cs s),
                total_length := some content.length }).metadata.start_pos.getD 0
          = chunkNextStart (chunkEnd content cs s) s ov - s := rfl
      rw [hstarts]
      have hcontent : (mkDocumentChunk
          (pyStrip (pySlice content s (chunkEnd content cs s))) sn idx
          { start_pos := some s, end_pos := some (chunkEnd content cs s),
            total_length := some content.length }).content
          = pySlice content s (chunkEnd content cs s) := hneu0
      rw [hcontent,
        pySlice_take content (by omega) hs2le,
        ← hbuild2,
        ih _ (idx + 1) (by omega) hs2
          (fun sp hsp => hneu sp (by
            rw [hspans]
            exact List.mem_cons_of_mem _ hsp)),
        pySlice_append_drop content (by omega)]
    · have hrest : chunkSpans content cs ov n
          (chunkNextStart (chunkEnd content cs s) s ov) = [] := by
        cases n with
        | zero => rfl
        | succ m => rw [chunkSpans, if_neg hs2]
      rw [hrest, buildChunks, chunkCoresConcat]
      show pyStrip (pySlice content s (chunkEnd content cs s)) = content.drop s
      have hlen2 : chunkEnd content cs s = content.length := by omega
      rw [hneu0, hlen2, pySlice_to_end]

/-- C2 (amended): for chunk_size at least one and overlap below chunk_size,
whenever every generated span's substring is already whitespace-trimmed
(Python strip leaves it unchanged), concatenating the chunks'
non-overlapping cores reconstructs the content exactly; the strip applied
in the loop body makes the unconditional statement false. -/
theorem chunk_roundtrip_amended :
    ∀ (content : Str) (cs ov : Nat) (sn : Str), 1 ≤ cs → ov < cs →
      (∀ sp ∈ chunkSpans content cs ov content.length 0,
        pyStrip (pySlice content sp.1 sp.2) = pySlice content sp.1 sp.2) →
      chunkCoresConcat (chunk_content content cs ov sn) = content := by
  intro content cs ov sn hcs _ hneu
  unfold chunk_content
  by_cases hlen : 0 < content.length
  · have hmain := chunks_cores_drop content cs ov sn hcs content.length 0 0
      (by omega) hlen hneu
    simpa using hmain
  · have hnil : content = [] := List.length_eq_zero.1 (by omega)
    subst hnil
    rfl

/-- C2 counterexample: with content " a" (one leading space), chunk size 5
and overlap 0, the loop produces a single chunk whose content was stripped
to "a"; its non-overlapping core is the whole chunk, and "a" does not
reconstruct " a" — the strip and the dropping of whitespace-only chunks
refute the unconditional round-trip claim. -/
theorem chunk_roundtrip_counterexample :
    chunk_content " a".data 5 0 "s".data =
      [mkDocumentChunk "a".data "s".data 0
        { start_pos := some 0, end_pos := some 2, total_length := some 2 }] ∧
    chunkCoresConcat (chunk_content " a".data 5 0 "s".data) = "a".data ∧
    "a".data ≠ " a".data := by decide

/-- Witness for the amended C2 at a concrete content with no trimmed
whitespace at span boundaries. -/
theorem chunk_roundtrip_amended_witness :
    chunkCoresConcat (chunk_content "ab".data 1 0 "s".data) = "ab".data :=
  chunk_roundtrip_amended "ab".data 1 0 "s".data (by decide) (by decide)
    (by decide)

/- ------------------------------------------------------------------
Section-aware chunking (claim C8)
------------------------------------------------------------------ -/

/-- C8: a section whose content fits within chunk_size contributes exactly
one chunk, verbatim (no strip), tagged is_complete_section, wherever it
occurs in the section list. -/
theorem section_fits_one_chunk :
    ∀ (pre post : List FilingSection) (sec : FilingSection) (cs ov : Nat),
      sec.content.length ≤ cs →
      chunk_by_sections (pre ++ sec :: post) cs ov =
        chunk_by_sections pre cs ov ++
          mkDocumentChunk sec.content sec.name 0
            { section_type := some sec.section_type,
              is_complete_section := some true,
              word_count := some sec.word_count,
              char_count := some sec.char_count } ::
          chunk_by_sections post cs ov := by
  intro pre post sec cs ov h
  unfold chunk_by_sections
  rw [List.map_append, List.map_cons, List.flatten_append, List.flatten_cons]
  congr 1
  rw [chunksForSection, if_pos h]
  rfl

/-- Witness for C8 at a concrete short section. -/
theorem section_fits_one_chunk_witness :
    chunk_by_sections [mkFilingSection "Item 1".data "hello".data "item_1".data]
        10 2 =
      [mkDocumentChunk "hello".data "Item 1".data 0
        { section_type := some "item_1".data,
          is_complete_section := some true,
          word_count := some (mkFilingSection "Item 1".data "hello".data
            "item_1".data).word_count,
          char_count := some (mkFilingSection "Item 1".data "hello".data
            "item_1".data).char_count }] :=
  section_fits_one_chunk [] []
    (mkFilingSection "Item 1".data "hello".data "item_1".data) 10 2 (by decide)

/- ------------------------------------------------------------------
Section segmenter (sec_edgar_mcp/document_parser.py,
SECDocumentParser.extract_sections lines 432-461).  The per-identifier regex
match lists (lines 437-441) are supplied as a pre-tokenized input: a list of
(start offset, section id, matched title) triples; the sort by start offset,
the derivation of each section span as running to the next match's start
(the last to document end), the title cleaning and the FilingSection
construction are translated from the source.
------------------------------------------------------------------ -/

/-- Stable insertion of a match into a list sorted by start offset (models
the stable Python list.sort with the start key; ties keep earlier matches
first). -/
def insertByStart (x : Nat × Str × Str) :
    List (Nat × Str × Str) → List (Nat × Str × Str)
  | [] => [x]
  | y :: t => if x.1 ≤ y.1 then x :: y :: t else y :: insertByStart x t

/-- Sort of the match list by start offset. -/
def sortMatches (ms : List (Nat × Str × Str)) : List (Nat × Str × Str) :=
  ms.foldr insertByStart []

/-- re.sub of whitespace runs by a single space (title cleaning). -/
def collapseWsRuns : Str → Str
  | [] => []
  | [c] => [if pyIsSpace c then ' ' else c]
  | c1 :: c2 :: t =>
    if pyIsSpace c1 && pyIsSpace c2 then collapseWsRuns (c2 :: t)
    else (if pyIsSpace c1 then ' ' else c1) :: collapseWsRuns (c2 :: t)

/-- Span derivation over the sorted matches: each section runs from its own
match start to the next match start, the last to document end; content is
the stripped slice and the name the cleaned matched title. -/
def sectionsOf (content : Str) : List (Nat × Str × Str) → List FilingSection
  | [] => []
  | [(s, sid, title)] =>
    [mkFilingSection (pyStrip (collapseWsRuns title))
      (pyStrip (pySlice content s content.length)) sid]
  | (s, sid, title) :: (s2, sid2, t2) :: rest =>
    mkFilingSection (pyStrip (collapseWsRuns title))
        (pyStrip (pySlice content s s2)) sid
      :: sectionsOf content ((s2, sid2, t2) :: rest)

/-- SECDocumentParser.extract_sections over the supplied match list. -/
def extract_sections_from_matches (content : Str)
    (ms : List (Nat × Str × Str)) : List FilingSection :=
  sectionsOf content (sortMatches ms)

/-- Head word of a split accumulator (empty when the accumulator is). -/
def headWord (acc : List Str) : Str := acc.headD []

theorem splitWsStep_preserve (c : Char) (acc1 acc2 : List Str)
    (hf : acc1.filter (fun w => !w.isEmpty) = acc2.filter (fun w => !w.isEmpty))
    (hh : headWord acc1 = headWord acc2) :
    (splitWsStep c acc1).filter (fun w => !w.isEmpty) =
        (splitWsStep c acc2).filter (fun w => !w.isEmpty) ∧
      headWord (splitWsStep c acc1) = headWord (splitWsStep c acc2) := by
  unfold splitWsStep
  by_cases hc : pyIsSpace c
  · simp only [hc, if_true]
    constructor
    · simp [List.filter_cons, hf]
    · rfl
  · simp only [hc, if_false]
    cases acc1 with
    | nil =>
      cases acc2 with
      | nil => exact ⟨rfl, rfl⟩
      | cons w2 r2 =>
        have hw2 : w2 = [] := hh.symm
        subst hw2
        have hr2 : r2.filter (fun w => !w.isEmpty) = [] := by
          have := hf.symm
          simpa [List.filter_cons] using this
        constructor
        · simp [List.filter_cons, hr2]
        · rfl
    | cons w1 r1 =>
      cases acc2 with
      | nil =>
        have hw1 : w1 = [] := hh
        subst hw1
        have hr1 : r1.filter (fun w => !w.isEmpty) = [] := by
          simpa [List.filter_cons] using hf
        constructor
        · simp [List.filter_cons, hr1]
        · rfl
      | cons w2 r2 =>
        have hw : w1 = w2 := hh
        subst hw
        have hr : r1.filter (fun w => !w.isEmpty) =
            r2.filter (fun w => !w.isEmpty) := by
          by_cases hw1 : w1.isEmpty
          · have hnil : w1 = [] := by
              cases w1 with
              | nil => rfl
              | cons a b => simp at hw1
            subst hnil
            simpa [List.filter_cons] using hf
          · have := hf
            rw [List.filter_cons, List.filter_cons] at this
            simp only [hw1] at this
            simpa using this
        constructor
        · simp [List.filter_cons, hr]
        · rfl

theorem foldr_splitWsStep_invariant (s : Str) :
    ∀ acc1 acc2 : List Str,
      acc1.filter (fun w => !w.isEmpty) = acc2.filter (fun w => !w.isEmpty) →
      headWord acc1 = headWord acc2 →
      (s.foldr splitWsStep acc1).filter (fun w => !w.isEmpty) =
          (s.foldr splitWsStep acc2).filter (fun w => !w.isEmpty) ∧
        headWord (s.foldr splitWsStep acc1) =
          headWord (s.foldr splitWsStep acc2) := by
  induction s with
  | nil => intro acc1 acc2 hf hh; exact ⟨hf, hh⟩
  | cons c t ih =>
    intro acc1 acc2 hf hh
    have hrec := ih acc1 acc2 hf hh
    simpa using splitWsStep_preserve c _ _ hrec.1 hrec.2

theorem splitWs_append_space {c : Char} (hc : pyIsSpace c = true) (s : Str) :
    pySplitWs (s ++ [c]) = pySplitWs s := by
  unfold pySplitWs
  rw [List.foldr_append]
  have hstep : ([c] : Str).foldr splitWsStep [] = [[]] := by
    simp [splitWsStep, hc]
  rw [hstep]
  exact (foldr_splitWsStep_invariant s [[]] [] (by simp) rfl).1

theorem splitWs_cons_space {c : Char} (hc : pyIsSpace c = true) (t : Str) :
    pySplitWs (c :: t) = pySplitWs t := by
  unfold pySplitWs
  show (splitWsStep c (t.foldr splitWsStep [])).filter (fun w => !w.isEmpty) = _
  unfold splitWsStep
  rw [if_pos hc]
  simp [List.filter_cons]

theorem splitWs_trimLeft (s : Str) : pySplitWs (trimLeft s) = pySplitWs s := by
  unfold trimLeft
  induction s with
  | nil => rfl
  | cons c t ih =>
    by_cases hc : pyIsSpace c
    · rw [show ((c :: t).dropWhile pyIsSpace) = t.dropWhile pyIsSpace from by
        simp [List.dropWhile_cons, hc]]
      rw [ih, splitWs_cons_space hc]
    · simp [List.dropWhile_cons, hc]

theorem splitWs_trimRight (s : Str) : pySplitWs (trimRight s) = pySplitWs s := by
  have main : ∀ r : Str,
      pySplitWs ((r.dropWhile pyIsSpace).reverse) = pySplitWs r.reverse := by
    intro r
    induction r with
    | nil => rfl
    | cons c t ih =>
      by_cases hc : pyIsSpace c
      · rw [show ((c :: t).dropWhile pyIsSpace) = t.dropWhile pyIsSpace from by
          simp [List.dropWhile_cons, hc]]
        rw [ih, List.reverse_cons, splitWs_append_space hc]
      · simp [List.dropWhile_cons, hc]
  have := main s.reverse
  simpa [trimRight] using this

theorem splitWs_pyStrip (s : Str) : pySplitWs (pyStrip s) = pySplitWs s := by
  unfold pyStrip
  rw [splitWs_trimRight, splitWs_trimLeft]

/-- C7: when the sorted matches begin with the Item 1 pattern at offset 100
followed by the Item 1A pattern at offset 5000, the first extracted section
has type item_1, content derived from content[100:5000] (stripped), and a
word count equal to a direct whitespace split of content[100:5000]; and in
general a last (single remaining) match spans to document end. -/
theorem first_section_span_wordcount :
    (∀ (content : Str) (ms rest : List (Nat × Str × Str)) (t1 t2 : Str),
      sortMatches ms =
          (100, "item_1".data, t1) :: (5000, "item_1a".data, t2) :: rest →
      ∃ sec sections,
        extract_sections_from_matches content ms = sec :: sections ∧
        sec.section_type = "item_1".data ∧
        sec.content = pyStrip (pySlice content 100 5000) ∧
        sec.word_count = (pySplitWs (pySlice content 100 5000)).length) ∧
    (∀ (content : Str) (ms : List (Nat × Str × Str)) (s : Nat) (sid title : Str),
      sortMatches ms = [(s, sid, title)] →
      extract_sections_from_matches content ms =
        [mkFilingSection (pyStrip (collapseWsRuns title))
          (pyStrip (pySlice content s content.length)) sid]) := by
  constructor
  · intro content ms rest t1 t2 hsort
    unfold extract_sections_from_matches
    rw [hsort, sectionsOf]
    refine ⟨_, _, rfl, rfl, rfl, ?_⟩
    show (pySplitWs (pyStrip (pySlice content 100 5000))).length = _
    rw [splitWs_pyStrip]
  · intro content ms s sid title hsort
    unfold extract_sections_from_matches
    rw [hsort, sectionsOf]

/-- Witness for C7: two concrete matches given out of order. -/
theorem first_section_span_wordcount_witness :
    ∃ sec sections,
      extract_sections_from_matches "hello world".data
          [(5000, "item_1a".data, "T2".data), (100, "item_1".data, "T1".data)]
        = sec :: sections ∧
      sec.section_type = "item_1".data ∧
      sec.content = pyStrip (pySlice "hello world".data 100 5000) ∧
      sec.word_count = (pySplitWs (pySlice "hello world".data 100 5000)).length :=
  first_section_span_wordcount.1 "hello world".data
    [(5000, "item_1a".data, "T2".data), (100, "item_1".data, "T1".data)]
    [] "T1".data "T2".data (by decide)

/- ------------------------------------------------------------------
Submission demultiplexer (sec_edgar_mcp/document_parser.py,
SECDocumentParser.get_document_info_from_txt, lines 386-430): split the text
into lines, track DOCUMENT boundaries, collect TYPE / SEQUENCE / FILENAME /
DESCRIPTION metadata and count content lines; a finished block is recorded
only when its collected dictionary is non-empty (Python dict truthiness).
------------------------------------------------------------------ -/

/-- Python line.replace(pat, sub) (left-to-right, non-overlapping); fuel is
the line length, sufficient for the nonempty patterns used here. -/
def replaceAllGo (pat sub : Str) : Nat → Str → Str
  | 0, l => l
  | _ + 1, [] => []
  | fuel + 1, c :: t =>
    if pat.isPrefixOf (c :: t) then
      sub ++ replaceAllGo pat sub fuel ((c :: t).drop pat.length)
    else c :: replaceAllGo pat sub fuel t

/-- Python l.replace(pat, sub). -/
def replaceAll (l pat sub : Str) : Str := replaceAllGo pat sub l.length l

/-- The metadata dictionary collected for one DOCUMENT block; absent fields
model absent dictionary keys (the source sets no defaults here). -/
structure DocInfo where
  type : Option Str := none
  sequence : Option Str := none
  filename : Option Str := none
  description : Option Str := none
  content_lines : Option Nat := none
deriving DecidableEq

/-- Python dict truthiness of the collected info: some key was set. -/
def docInfoNonempty (d : DocInfo) : Bool :=
  d.type.isSome || d.sequence.isSome || d.filename.isSome ||
    d.description.isSome || d.content_lines.isSome

/-- The value written for a metadata tag line: the tag text removed by
str.replace, then stripped. -/
def tagValue (line pat : Str) : Str := pyStrip (replaceAll (pyStrip line) pat [])

/-- The in-document update of the loop body for one non-boundary line:
metadata tags set their field, a line not starting with a tag bracket
counts as content, any other tag line is ignored. -/
def blockInfoStep (cur : DocInfo) (line : Str) : DocInfo :=
  if "<TYPE>".data.isPrefixOf (pyStrip line) then
    { cur with type := some (tagValue line "<TYPE>".data) }
  else if "<SEQUENCE>".data.isPrefixOf (pyStrip line) then
    { cur with sequence := some (tagValue line "<SEQUENCE>".data) }
  else if "<FILENAME>".data.isPrefixOf (pyStrip line) then
    { cur with filename := some (tagValue line "<FILENAME>".data) }
  else if "<DESCRIPTION>".data.isPrefixOf (pyStrip line) then
    { cur with description := some (tagValue line "<DESCRIPTION>".data) }
  else if !("<".data.isPrefixOf (pyStrip line)) then
    { cur with content_lines := some (cur.content_lines.getD 0 + 1) }
  else cur

/-- The line loop of get_document_info_from_txt. -/
def docInfoLoop : List Str → Bool → DocInfo → List DocInfo
  | [], _, _ => []
  | line :: rest, inDoc, cur =>
    if "<DOCUMENT>".data.isPrefixOf (pyStrip line) then
      docInfoLoop rest true {}
    else if "</DOCUMENT>".data.isPrefixOf (pyStrip line) then
      (if docInfoNonempty cur then [cur] else []) ++ docInfoLoop rest false {}
    else if !inDoc then
      docInfoLoop rest inDoc cur
    else
      docInfoLoop rest inDoc (blockInfoStep cur line)

/-- SECDocumentParser.get_document_info_from_txt. -/
def get_document_info_from_txt (txt : Str) : List DocInfo :=
  docInfoLoop (splitLines txt) false {}

/-- The info collected over one block's lines. -/
def blockInfo (lines : List Str) : DocInfo := lines.foldl blockInfoStep {}

/-- A line opening or closing a DOCUMENT block. -/
def isMarkerLine (l : Str) : Bool :=
  "<DOCUMENT>".data.isPrefixOf (pyStrip l)
    || "</DOCUMENT>".data.isPrefixOf (pyStrip l)

/-- A submission text rendered from a list of blocks, each wrapped in the
literal DOCUMENT delimiters. -/
def renderBlockLines (blocks : List (List Str)) : List Str :=
  (blocks.map (fun b => "<DOCUMENT>".data :: b ++ ["</DOCUMENT>".data])).flatten

/- ------------------------------------------------------------------
Demultiplexer lemmas and theorems (claim C3)
------------------------------------------------------------------ -/

theorem splitLines_no_nl (l : Str) (h : '\n' ∉ l) : splitLines l = [l] := by
  induction l with
  | nil => rfl
  | cons c t ih =>
    have hc : ¬ c = '\n' := fun e => h (e ▸ List.mem_cons_self c t)
    rw [splitLines, if_neg hc, ih (fun hm => h (List.mem_cons_of_mem _ hm))]

theorem splitLines_append_nl (l : Str) (h : '\n' ∉ l) (rest : Str) :
    splitLines (l ++ '\n' :: rest) = l :: splitLines rest := by
  induction l with
  | nil =>
    rw [List.nil_append, splitLines, if_pos rfl]
  | cons c t ih =>
    have hc : ¬ c = '\n' := fun e => h (e ▸ List.mem_cons_self c t)
    rw [List.cons_append, splitLines, if_neg hc,
      ih (fun hm => h (List.mem_cons_of_mem _ hm))]

theorem splitLines_joinLines :
    ∀ ls : List Str, ls ≠ [] → (∀ l ∈ ls, '\n' ∉ l) →
      splitLines (joinLines ls) = ls := by
  intro ls
  induction ls with
  | nil => intro h; exact absurd rfl h
  | cons l rest ih =>
    intro _ hnl
    cases rest with
    | nil =>
      show splitLines (joinLines [l]) = [l]
      rw [joinLines, splitLines_no_nl l (hnl l (List.mem_cons_self _ _))]
    | cons l2 r2 =>
      show splitLines (l ++ '\n' :: joinLines (l2 :: r2)) = l :: l2 :: r2
      rw [splitLines_append_nl l (hnl l (List.mem_cons_self _ _)),
        ih (by simp) (fun x hx => hnl x (List.mem_cons_of_mem _ hx))]

theorem docInfoLoop_block :
    ∀ (b : List Str) (rest : List Str) (cur : DocInfo),
      (∀ l ∈ b, isMarkerLine l = false) →
      docInfoLoop (b ++ "</DOCUMENT>".data :: rest) true cur =
        (if docInfoNonempty (b.foldl blockInfoStep cur) then
          [b.foldl blockInfoStep cur] else []) ++ docInfoLoop rest false {} := by
  intro b
  induction b with
  | nil =>
    intro rest cur _
    rw [List.nil_append, docInfoLoop, if_neg (by decide), if_pos (by decide)]
    rfl
  | cons l b' ih =>
    intro rest cur hm
    have hml := hm l (List.mem_cons_self _ _)
    unfold isMarkerLine at hml
    rw [Bool.or_eq_false_iff] at hml
    rw [List.cons_append, docInfoLoop, if_neg (by simp [hml.1]),
      if_neg (by simp [hml.2]), if_neg (by decide)]
    rw [ih rest (blockInfoStep cur l) (fun x hx => hm x (List.mem_cons_of_mem _ hx))]
    rw [List.foldl_cons]

theorem docInfoLoop_render :
    ∀ blocks : List (List Str),
      (∀ b ∈ blocks, ∀ l ∈ b, isMarkerLine l = false) →
      docInfoLoop (renderBlockLines blocks) false {} =
        (blocks.map blockInfo).filter docInfoNonempty := by
  intro blocks
  induction blocks with
  | nil => intro _; rfl
  | cons b bs ih =>
    intro hm
    show docInfoLoop (renderBlockLines (b :: bs)) false {} = _
    have hrender : renderBlockLines (b :: bs) =
        "<DOCUMENT>".data :: (b ++ "</DOCUMENT>".data :: renderBlockLines bs) := by
      unfold renderBlockLines
      rw [List.map_cons, List.flatten_cons]
      simp
    rw [hrender, docInfoLoop, if_pos (by decide)]
    rw [docInfoLoop_block b _ {} (hm b (List.mem_cons_self _ _))]
    rw [ih (fun x hx => hm x (List.mem_cons_of_mem _ hx))]
    rw [List.map_cons, List.filter_cons,
      ← (show blockInfo b = List.foldl blockInfoStep {} b from rfl)]
    by_cases hne : docInfoNonempty (blockInfo b)
    · rw [if_pos hne, if_pos hne]
      rfl
    · rw [if_neg hne, if_neg hne]
      rfl

theorem blockInfoStep_type (cur : DocInfo) (l : Str)
    (h : ("<TYPE>".data.isPrefixOf (pyStrip l)) = false) :
    (blockInfoStep cur l).type = cur.type := by
  unfold blockInfoStep
  rw [if_neg (by simp [h])]
  split
  · rfl
  · split
    · rfl
    · split
      · rfl
      · split
        · rfl
        · rfl

theorem blockInfo_no_type :
    ∀ (lines : List Str) (cur : DocInfo),
      (∀ l ∈ lines, ("<TYPE>".data.isPrefixOf (pyStrip l)) = false) →
      (lines.foldl blockInfoStep cur).type = cur.type := by
  intro lines
  induction lines with
  | nil => intro cur _; rfl
  | cons l t ih =>
    intro cur h
    rw [List.foldl_cons, ih _ (fun x hx => h x (List.mem_cons_of_mem _ hx)),
      blockInfoStep_type cur l (h l (List.mem_cons_self _ _))]

theorem renderBlockLines_no_nl (blocks : List (List Str))
    (h : ∀ b ∈ blocks, ∀ l ∈ b, '\n' ∉ l) :
    ∀ l ∈ renderBlockLines blocks, '\n' ∉ l := by
  intro l hl
  unfold renderBlockLines at hl
  rcases List.mem_flatten.1 hl with ⟨chunk, hchunk, hlc⟩
  rcases List.mem_map.1 hchunk with ⟨b, hb, rfl⟩
  rcases List.mem_cons.1 hlc with rfl | hlc2
  · decide
  · rcases List.mem_append.1 hlc2 with h3 | h3
    · exact h b hb l h3
    · rcases List.mem_singleton.1 h3 with rfl
      decide

/-- C3 (amended): get_document_info_from_txt returns one record per
DOCUMENT block whose collected info is non-empty — with every block
non-empty, exactly one record per block, in order — and applies no
defaults: a block without a TYPE line yields a record with no type field
(not UNKNOWN); zero blocks yield the empty list without error. -/
theorem document_info_per_block :
    (∀ blocks : List (List Str),
      (∀ b ∈ blocks, ∀ l ∈ b, isMarkerLine l = false ∧ '\n' ∉ l) →
      (∀ b ∈ blocks, docInfoNonempty (blockInfo b) = true) →
      get_document_info_from_txt (joinLines (renderBlockLines blocks)) =
        blocks.map blockInfo) ∧
    (∀ lines : List Str,
      (∀ l ∈ lines, ("<TYPE>".data.isPrefixOf (pyStrip l)) = false) →
      (blockInfo lines).type = none) := by
  constructor
  · intro blocks hwf hne
    unfold get_document_info_from_txt
    by_cases hblocks : blocks = []
    · subst hblocks
      rfl
    · have hrnil : renderBlockLines blocks ≠ [] := by
        cases blocks with
        | nil => exact absurd rfl hblocks
        | cons b bs =>
          unfold renderBlockLines
          rw [List.map_cons, List.flatten_cons]
          simp
      rw [splitLines_joinLines _ hrnil
        (renderBlockLines_no_nl blocks (fun b hb l hl => (hwf b hb l hl).2))]
      rw [docInfoLoop_render blocks (fun b hb l hl => (hwf b hb l hl).1)]
      exact List.filter_eq_self.2 (fun d hd => by
        rcases List.mem_map.1 hd with ⟨b, hb, rfl⟩
        exact hne b hb)
  · intro lines h
    exact blockInfo_no_type lines {} h

/-- C3 counterexample: the input has exactly two DOCUMENT blocks (the second
empty), yet only one record is returned, and that record carries no
UNKNOWN/unknown defaults for its missing type and filename — refuting the
claim that N blocks give N records with defaulted fields. -/
theorem document_info_counterexample :
    (renderBlockLines [["hello".data], []]).countP
        (fun l => "<DOCUMENT>".data.isPrefixOf (pyStrip l)) = 2 ∧
    get_document_info_from_txt
        (joinLines (renderBlockLines [["hello".data], []])) =
      [{ content_lines := some 1 }] ∧
    (∀ d ∈ get_document_info_from_txt
        (joinLines (renderBlockLines [["hello".data], []])),
      d.type ≠ some "UNKNOWN".data ∧ d.filename ≠ some "unknown".data) := by
  refine ⟨by decide, by decide, by decide⟩

/-- Witness for the amended C3 at one concrete block with a content line. -/
theorem document_info_per_block_witness :
    get_document_info_from_txt (joinLines (renderBlockLines [["hello".data]]))
      = [["hello".data]].map blockInfo :=
  document_info_per_block.1 [["hello".data]] (by decide) (by decide)

/- ------------------------------------------------------------------
Primary document selector (sec_edgar_mcp/document_parser.py,
SECDocumentParser.extract_main_document_from_txt, lines 166-278): parse the
submission into documents (type, filename, content, non-blank line count),
pick the first match by type priority, fall back to the largest markup
document when the primary-typed content is a placeholder, else the largest
document by character count; the result is whitespace-normalised.
------------------------------------------------------------------ -/

/-- Index of the last newline inside a whitespace run (for the greedy
match end of the triple-newline substitution). -/
def lastNlIdx (w : Str) : Option Nat :=
  ((List.range w.length).filter (fun i => w.getD i ' ' = '\n')).getLast?

/-- re.sub of the pattern newline-whitespace-newline-whitespace-newline by a
double newline: at a newline whose following whitespace run holds at least
two more newlines, the greedy match ends at the last newline of the run and
is replaced; scanning resumes after the match (fuel bounds the scan
positions). -/
def subTripleNlGo : Nat → Str → Str
  | 0, l => l
  | _ + 1, [] => []
  | fuel + 1, c :: t =>
    if c = '\n' ∧ 2 ≤ (t.takeWhile pyIsSpace).countP (fun d => decide (d = '\n')) then
      match lastNlIdx (t.takeWhile pyIsSpace) with
      | some j => '\n' :: '\n' :: subTripleNlGo fuel (t.drop (j + 1))
      | none => c :: subTripleNlGo fuel t
    else c :: subTripleNlGo fuel t

/-- re.sub of runs of spaces by a single space. -/
def collapseSpaces : Str → Str
  | [] => []
  | [c] => [c]
  | c1 :: c2 :: t =>
    if c1 = ' ' ∧ c2 = ' ' then collapseSpaces (c2 :: t)
    else c1 :: collapseSpaces (c2 :: t)

/-- The whitespace normalisation applied to the selected content: collapse
triple newlines, collapse space runs, strip. -/
def cleanupWs (s : Str) : Str :=
  pyStrip (collapseSpaces (subTripleNlGo s.length s))

/-- A parsed document record of extract_main_document_from_txt: type,
filename, joined content and non-blank line count. -/
structure MainDoc where
  type : Str
  filename : Str
  content : Str
  line_count : Nat
deriving DecidableEq

/-- Python `x or default` over an optional string: the default replaces
None and the empty string. -/
def pyOrStr (o : Option Str) (d : Str) : Str :=
  match o with
  | some s => if s.isEmpty then d else s
  | none => d

/-- Python truthiness of an optional string. -/
def optTruthy (o : Option Str) : Bool :=
  match o with
  | some s => !s.isEmpty
  | none => false

/-- Python line.endswith(chr(62)). -/
def endsWithGt (l : Str) : Bool := l.getLast? == some '>'

/-- The parse loop of extract_main_document_from_txt (lines 175-219):
document boundaries reset the state, TYPE and FILENAME set metadata, other
bracketed tag-only lines are skipped, everything else is content (appended
raw); a block is recorded at its closing tag when it has lines and a truthy
type. -/
def parseMainLoop :
    List Str → Bool → List Str → Option Str → Option Str → List MainDoc
  | [], _, _, _, _ => []
  | line :: rest, inDoc, curLines, curType, curFile =>
    if "<DOCUMENT>".data.isPrefixOf (pyStrip line) then
      parseMainLoop rest true [] none none
    else if "</DOCUMENT>".data.isPrefixOf (pyStrip line) then
      (if !curLines.isEmpty && optTruthy curType then
        [{ type := pyOrStr curType "UNKNOWN".data,
           filename := pyOrStr curFile "unknown".data,
           content := joinLines curLines,
           line_count :=
             (curLines.filter (fun l => !(pyStrip l).isEmpty)).length }]
      else []) ++ parseMainLoop rest false [] none none
    else if !inDoc then
      parseMainLoop rest inDoc curLines curType curFile
    else if "<TYPE>".data.isPrefixOf (pyStrip line) then
      parseMainLoop rest inDoc curLines (some (tagValue line "<TYPE>".data))
        curFile
    else if "<FILENAME>".data.isPrefixOf (pyStrip line) then
      parseMainLoop rest inDoc curLines curType
        (some (tagValue line "<FILENAME>".data))
    else if "<".data.isPrefixOf (pyStrip line) && endsWithGt (pyStrip line) then
      parseMainLoop rest inDoc curLines curType curFile
    else
      parseMainLoop rest inDoc (curLines ++ [line]) curType curFile

/-- The parse phase of extract_main_document_from_txt. -/
def parseMainDocs (txt : Str) : List MainDoc :=
  parseMainLoop (splitLines txt) false [] none none

/-- The type priority list of the source. -/
def mainDocTypes : List Str :=
  ["10-Q", "10-K", "10-K/A", "10-Q/A", "8-K", "8-K/A"].map String.data

/-- The nested find-by-type loops: for each type in priority order, the
first document of that type sets the candidate; the outer loop stops at the
first truthy content. -/
def findMainByTypeGo (docs : List MainDoc) :
    List Str → Option Str → Option Str
  | [], st => st
  | t :: ts, st =>
    match docs.find? (fun d => d.type == t) with
    | some d =>
      if !d.content.isEmpty then some d.content
      else findMainByTypeGo docs ts (some d.content)
    | none => findMainByTypeGo docs ts st

/-- First document content by type priority. -/
def findMainByType (docs : List MainDoc) : Option Str :=
  findMainByTypeGo docs mainDocTypes none

/-- Python max(l, key=f): first element with maximal key. -/
def maxByNat? {α : Type _} (f : α → Nat) : List α → Option α
  | [] => none
  | x :: t => some (t.foldl (fun best y => if f best < f y then y else best) x)

/-- The placeholder fallback (lines 237-258): when the primary-typed content
is truthy but its strip is under 500 characters, prefer the largest markup
document with over 100 non-blank lines, else the largest such document. -/
def selectFallback (docs : List MainDoc) (m0 : Option Str) : Option Str :=
  if optTruthy m0 && decide ((pyStrip (m0.getD [])).length < 500) then
    if !(docs.filter (fun d => 100 < d.line_count)).isEmpty then
      if !((docs.filter (fun d => 100 < d.line_count)).filter
          (fun d => ".htm".data.isSuffixOf d.filename)).isEmpty then
        (maxByNat? (fun d => d.line_count)
          ((docs.filter (fun d => 100 < d.line_count)).filter
            (fun d => ".htm".data.isSuffixOf d.filename))).map
          (fun d => d.content)
      else
        (maxByNat? (fun d => d.line_count)
          (docs.filter (fun d => 100 < d.line_count))).map (fun d => d.content)
    else m0
  else m0

/-- The largest-document fallback (lines 261-264): when the candidate is
still falsy or its strip is under 100 characters, take the largest document
by raw character count. -/
def selectLargest (docs : List MainDoc) (m1 : Option Str) : Option Str :=
  if !optTruthy m1 || decide ((pyStrip (m1.getD [])).length < 100) then
    if !docs.isEmpty then
      (maxByNat? (fun d => d.content.length) docs).map (fun d => d.content)
    else m1
  else m1

/-- The selection phase: type priority, placeholder fallback, largest
fallback, empty on nothing, whitespace normalisation at the end. -/
def selectMainContent (docs : List MainDoc) : Str :=
  match selectLargest docs (selectFallback docs (findMainByType docs)) with
  | none => []
  | some c => if c.isEmpty then [] else cleanupWs c

/-- SECDocumentParser.extract_main_document_from_txt. -/
def extract_main_document_from_txt (txt : Str) : Str :=
  selectMainContent (parseMainDocs txt)

/- ------------------------------------------------------------------
Selector lemmas and theorems (claim C4)
------------------------------------------------------------------ -/

theorem parseMainLoop_content :
    ∀ (lines : List Str) (inDoc : Bool) (curLines : List Str)
      (curType curFile : Option Str) (d : MainDoc),
      d ∈ parseMainLoop lines inDoc curLines curType curFile →
      ∃ ls : List Str, d.content = joinLines ls ∧
        d.line_count = (ls.filter (fun l => !(pyStrip l).isEmpty)).length := by
  intro lines
  induction lines with
  | nil => intro _ _ _ _ d h; simp [parseMainLoop] at h
  | cons line rest ih =>
    intro inDoc curLines curType curFile d h
    rw [parseMainLoop] at h
    split at h
    · exact ih _ _ _ _ d h
    · split at h
      · rcases List.mem_append.1 h with h1 | h2
        · split at h1
          · rcases List.mem_singleton.1 h1 with rfl
            exact ⟨curLines, rfl, rfl⟩
          · simp at h1
        · exact ih _ _ _ _ d h2
      · split at h
        · exact ih _ _ _ _ d h
        · split at h
          · exact ih _ _ _ _ d h
          · split at h
            · exact ih _ _ _ _ d h
            · split at h
              · exact ih _ _ _ _ d h
              · exact ih _ _ _ _ d h

theorem countP_nonspace_trimLeft (s : Str) :
    (trimLeft s).countP (fun c => !pyIsSpace c) =
      s.countP (fun c => !pyIsSpace c) := by
  unfold trimLeft
  induction s with
  | nil => rfl
  | cons c t ih =>
    by_cases hc : pyIsSpace c
    · rw [List.dropWhile_cons]
      simp only [hc, if_true]
      rw [ih, List.countP_cons]
      simp [hc]
    · rw [List.dropWhile_cons]
      simp [hc]

theorem countP_nonspace_pyStrip (s : Str) :
    (pyStrip s).countP (fun c => !pyIsSpace c) =
      s.countP (fun c => !pyIsSpace c) := by
  unfold pyStrip trimRight
  rw [show ∀ l : Str, l.reverse.countP (fun c => !pyIsSpace c) =
      l.countP (fun c => !pyIsSpace c) from fun l => by simp]
  have hdrop : ∀ l : Str, (l.dropWhile pyIsSpace).countP (fun c => !pyIsSpace c)
      = l.countP (fun c => !pyIsSpace c) := by
    intro l
    induction l with
    | nil => rfl
    | cons c t ih =>
      by_cases hc : pyIsSpace c
      · rw [List.dropWhile_cons]
        simp only [hc, if_true]
        rw [ih, List.countP_cons]
        simp [hc]
      · rw [List.dropWhile_cons]
        simp [hc]
  rw [hdrop]
  rw [show ∀ l : Str, l.reverse.countP (fun c => !pyIsSpace c) =
      l.countP (fun c => !pyIsSpace c) from fun l => by simp]
  exact countP_nonspace_trimLeft s

theorem countP_le_strip_length (s : Str) :
    s.countP (fun c => !pyIsSpace c) ≤ (pyStrip s).length := by
  calc s.countP (fun c => !pyIsSpace c)
      = (pyStrip s).countP (fun c => !pyIsSpace c) :=
        (countP_nonspace_pyStrip s).symm
    _ ≤ (pyStrip s).length := List.countP_le_length _

theorem countP_nonspace_joinLines :
    ∀ ls : List Str, (joinLines ls).countP (fun c => !pyIsSpace c) =
      (ls.map (fun l => l.countP (fun c => !pyIsSpace c))).sum := by
  intro ls
  induction ls with
  | nil => rfl
  | cons l rest ih =>
    cases rest with
    | nil => simp [joinLines]
    | cons l2 r2 =>
      show (l ++ '\n' :: joinLines (l2 :: r2)).countP _ = _
      rw [List.countP_append, List.countP_cons, ih]
      simp [pyIsSpace]

theorem strip_nonempty_has_nonspace {l : Str}
    (h : (pyStrip l).isEmpty = false) : ∃ x ∈ l, (!pyIsSpace x) = true := by
  by_contra hall
  push_neg at hall
  have hws : ∀ x ∈ l, pyIsSpace x = true := by
    intro x hx
    have := hall x hx
    simpa using this
  have htl : trimLeft l = [] := List.dropWhile_eq_nil_iff.2 hws
  rw [pyStrip, htl] at h
  exact absurd h (by decide)

theorem nonblank_count_le (ls : List Str) :
    (ls.filter (fun l => !(pyStrip l).isEmpty)).length ≤
      (ls.map (fun l => l.countP (fun c => !pyIsSpace c))).sum := by
  induction ls with
  | nil => simp
  | cons l rest ih =>
    rw [List.filter_cons, List.map_cons, List.sum_cons]
    cases h : (pyStrip l).isEmpty with
    | true =>
      simp only [Bool.not_true, Bool.false_eq_true, if_false]
      omega
    | false =>
      simp only [Bool.not_false, if_true, List.length_cons]
      have h1 : 0 < l.countP (fun c => !pyIsSpace c) := by
        rcases strip_nonempty_has_nonspace h with ⟨x, hx, hpx⟩
        exact List.countP_pos_iff.2 ⟨x, hx, hpx⟩
      omega

theorem mainDoc_bounds (lines : List Str) (inDoc : Bool)
    (curLines : List Str) (curType curFile : Option Str) (d : MainDoc)
    (hmem : d ∈ parseMainLoop lines inDoc curLines curType curFile) :
    d.line_count ≤ (pyStrip d.content).length ∧
      d.line_count ≤ d.content.length := by
  rcases parseMainLoop_content lines inDoc curLines curType curFile d hmem
    with ⟨ls, hc, hl⟩
  have h1 : d.line_count ≤
      (ls.map (fun l => l.countP (fun c => !pyIsSpace c))).sum := by
    rw [hl]; exact nonblank_count_le ls
  have h2 : d.content.countP (fun c => !pyIsSpace c) =
      (ls.map (fun l => l.countP (fun c => !pyIsSpace c))).sum := by
    rw [hc]; exact countP_nonspace_joinLines ls
  constructor
  · calc d.line_count ≤ d.content.countP (fun c => !pyIsSpace c) := by omega
      _ ≤ (pyStrip d.content).length := countP_le_strip_length _
  · calc d.line_count ≤ d.content.countP (fun c => !pyIsSpace c) := by omega
      _ ≤ d.content.length := List.countP_le_length _

theorem maxByNat?_mem {α : Type _} (f : α → Nat) :
    ∀ (l : List α) (x : α), maxByNat? f l = some x → x ∈ l := by
  have go : ∀ (t : List α) (x : α),
      t.foldl (fun best y => if f best < f y then y else best) x ∈ x :: t := by
    intro t
    induction t with
    | nil => intro x; exact List.mem_cons_self _ _
    | cons y t ih =>
      intro x
      rw [List.foldl_cons]
      by_cases h : f x < f y
      · rw [if_pos h]
        exact List.mem_cons_of_mem _ (ih y)
      · rw [if_neg h]
        rcases List.mem_cons.1 (ih x) with h2 | h2
        · rw [h2]
          exact List.mem_cons_self _ _
        · exact List.mem_cons_of_mem _ (List.mem_cons_of_mem _ h2)
  intro l x h
  cases l with
  | nil => simp [maxByNat?] at h
  | cons a t =>
    rw [maxByNat?, Option.some.injEq] at h
    exact h ▸ go t a

theorem maxByNat?_ge {α : Type _} (f : α → Nat) :
    ∀ (l : List α) (x : α), maxByNat? f l = some x → ∀ y ∈ l, f y ≤ f x := by
  have go : ∀ (t : List α) (x : α) (y : α), y ∈ x :: t →
      f y ≤ f (t.foldl (fun best z => if f best < f z then z else best) x) := by
    intro t
    induction t with
    | nil =>
      intro x y hy
      rcases List.mem_singleton.1 hy with rfl
      exact le_refl _
    | cons z t ih =>
      intro x y hy
      rw [List.foldl_cons]
      by_cases h : f x < f z
      · rw [if_pos h]
        rcases List.mem_cons.1 hy with heq | hy2
        · subst heq
          exact le_trans (le_of_lt h) (ih z z (List.mem_cons_self _ _))
        · exact ih z y hy2
      · rw [if_neg h]
        rcases List.mem_cons.1 hy with heq | hy2
        · subst heq
          exact ih y y (List.mem_cons_self _ _)
        · rcases List.mem_cons.1 hy2 with heq2 | hy3
          · subst heq2
            exact le_trans (le_of_not_lt h) (ih x x (List.mem_cons_self _ _))
          · exact ih x y (List.mem_cons_of_mem _ hy3)
  intro l x h y hy
  cases l with
  | nil => simp at hy
  | cons a t =>
    rw [maxByNat?, Option.some.injEq] at h
    subst h
    exact go t a y hy

theorem isEmpty_false_of_ne_nil {α : Type _} {l : List α} (h : l ≠ []) :
    l.isEmpty = false := by
  cases l with
  | nil => exact absurd rfl h
  | cons a t => rfl

/-- C4 (amended): for every submission whose type-priority search finds a
primary-typed document with nonempty content whose strip is under 500
characters, and which holds a document with an .htm filename and more than
1000 non-blank lines, extract_main_document_from_txt returns the
whitespace-normalised content of such a markup document (the one of
maximal line count), not the placeholder; nonemptiness of the placeholder
content is required because a falsy content skips the fallback. -/
theorem placeholder_selector_prefers_markup :
    ∀ (txt : Str) (c0 : Str),
      findMainByType (parseMainDocs txt) = some c0 →
      c0 ≠ [] →
      (pyStrip c0).length < 500 →
      (∃ d ∈ parseMainDocs txt,
        ".htm".data.isSuffixOf d.filename = true ∧ 1000 < d.line_count) →
      ∃ d ∈ parseMainDocs txt,
        ".htm".data.isSuffixOf d.filename = true ∧ 1000 < d.line_count ∧
        extract_main_document_from_txt txt = cleanupWs d.content := by
  intro txt c0 hfind hc0ne hc0len hex
  rcases hex with ⟨dw, hdwmem, hdwhtm, hdwlines⟩
  have hdwcd : dw ∈ (parseMainDocs txt).filter (fun d => 100 < d.line_count) :=
    List.mem_filter.2 ⟨hdwmem, decide_eq_true (by omega)⟩
  have hdwhtmmem : dw ∈ ((parseMainDocs txt).filter
      (fun d => 100 < d.line_count)).filter
      (fun d => ".htm".data.isSuffixOf d.filename) :=
    List.mem_filter.2 ⟨hdwcd, hdwhtm⟩
  obtain ⟨best, hbest⟩ : ∃ b, maxByNat? (fun d => d.line_count)
      (((parseMainDocs txt).filter (fun d => 100 < d.line_count)).filter
        (fun d => ".htm".data.isSuffixOf d.filename)) = some b := by
    cases hl : ((parseMainDocs txt).filter (fun d => 100 < d.line_count)).filter
        (fun d => ".htm".data.isSuffixOf d.filename) with
    | nil => rw [hl] at hdwhtmmem; simp at hdwhtmmem
    | cons a t => exact ⟨_, rfl⟩
  have hbestmem := maxByNat?_mem (fun d => d.line_count) _ best hbest
  have hbesthtm : ".htm".data.isSuffixOf best.filename = true :=
    (List.mem_filter.1 hbestmem).2
  have hbestcd := (List.mem_filter.1 hbestmem).1
  have hbestdocs : best ∈ parseMainDocs txt := List.mem_of_mem_filter hbestcd
  have hbestlines : 1000 < best.line_count :=
    lt_of_lt_of_le hdwlines
      (maxByNat?_ge (fun d => d.line_count) _ best hbest dw hdwhtmmem)
  have hbounds := mainDoc_bounds (splitLines txt) false [] none none best
    hbestdocs
  have hcontentne : best.content ≠ [] := by
    have := hbounds.2
    intro hnil
    rw [hnil] at this
    simp at this
    omega
  have hm0 : optTruthy (some c0) = true := by
    show (!c0.isEmpty) = true
    rw [isEmpty_false_of_ne_nil hc0ne]
    rfl
  have hfb : selectFallback (parseMainDocs txt) (some c0) = some best.content := by
    unfold selectFallback
    rw [if_pos (by simp [hm0, Option.getD, hc0len])]
    rw [if_pos (by
      rw [isEmpty_false_of_ne_nil (List.ne_nil_of_mem hdwcd)]
      rfl)]
    rw [if_pos (by
      rw [isEmpty_false_of_ne_nil (List.ne_nil_of_mem hdwhtmmem)]
      rfl)]
    rw [hbest]
    rfl
  have hsl : selectLargest (parseMainDocs txt) (some best.content) =
      some best.content := by
    unfold selectLargest
    have h1 : optTruthy (some best.content) = true := by
      show (!best.content.isEmpty) = true
      rw [isEmpty_false_of_ne_nil hcontentne]
      rfl
    have h2 : decide ((pyStrip ((some best.content).getD [])).length < 100)
        = false := by
      apply decide_eq_false
      show ¬ (pyStrip best.content).length < 100
      have := hbounds.1
      omega
    rw [if_neg (by rw [h1, h2]; simp)]
  refine ⟨best, hbestdocs, hbesthtm, hbestlines, ?_⟩
  unfold extract_main_document_from_txt selectMainContent
  rw [hfind, hfb, hsl]
  show (if best.content.isEmpty then [] else cleanupWs best.content) = _
  rw [isEmpty_false_of_ne_nil hcontentne]
  simp

theorem subTripleNlGo_no_nl :
    ∀ (fuel : Nat) (l : Str), '\n' ∉ l → subTripleNlGo fuel l = l := by
  intro fuel
  induction fuel with
  | zero => intro l _; rfl
  | succ n ih =>
    intro l h
    cases l with
    | nil => rfl
    | cons c t =>
      have hc : ¬ c = '\n' := fun e => h (e ▸ List.mem_cons_self c t)
      rw [subTripleNlGo, if_neg (by intro hand; exact hc hand.1)]
      rw [ih t (fun hm => h (List.mem_cons_of_mem _ hm))]

theorem collapseSpaces_no_space :
    ∀ l : Str, ' ' ∉ l → collapseSpaces l = l := by
  intro l
  induction l with
  | nil => intro _; rfl
  | cons c t ih =>
    intro h
    cases t with
    | nil => rfl
    | cons c2 t2 =>
      have hc : ¬ c = ' ' := fun e => h (e ▸ List.mem_cons_self c _)
      rw [collapseSpaces, if_neg (by intro hand; exact hc hand.1)]
      rw [ih (fun hm => h (List.mem_cons_of_mem _ hm))]

theorem pyStrip_replicate_nonws (c : Char) (hc : pyIsSpace c = false) (n : Nat) :
    pyStrip (List.replicate n c) = List.replicate n c := by
  cases n with
  | zero => rfl
  | succ m =>
    unfold pyStrip trimLeft trimRight
    rw [List.replicate_succ, List.dropWhile_cons]
    simp only [hc, Bool.false_eq_true, if_false]
    rw [← List.replicate_succ, List.reverse_replicate, List.replicate_succ,
      List.dropWhile_cons]
    simp only [hc, Bool.false_eq_true, if_false]
    rw [← List.replicate_succ, List.reverse_replicate]

theorem cleanupWs_no_specials (l : Str)
    (hn : '\n' ∉ l) (hs : ' ' ∉ l)
    (hstrip : pyStrip l = l) : cleanupWs l = l := by
  unfold cleanupWs
  rw [subTripleNlGo_no_nl l.length l hn, collapseSpaces_no_space l hs, hstrip]

theorem pyStrip_length_le (l : Str) : (pyStrip l).length ≤ l.length := by
  unfold pyStrip trimLeft trimRight
  calc ((((l.dropWhile pyIsSpace).reverse.dropWhile pyIsSpace)).reverse).length
      = ((l.dropWhile pyIsSpace).reverse.dropWhile pyIsSpace).length := by
        rw [List.length_reverse]
    _ ≤ (l.dropWhile pyIsSpace).reverse.length :=
        (List.dropWhile_sublist _).length_le
    _ = (l.dropWhile pyIsSpace).length := by rw [List.length_reverse]
    _ ≤ l.length := (List.dropWhile_sublist _).length_le

theorem collapseSpaces_length_le : ∀ l : Str, (collapseSpaces l).length ≤ l.length := by
  intro l
  induction l with
  | nil => simp [collapseSpaces]
  | cons c t ih =>
    cases t with
    | nil => simp [collapseSpaces]
    | cons c2 t2 =>
      rw [collapseSpaces]
      split
      · have hh := ih
        simp only [List.length_cons] at hh ⊢
        omega
      · have hh := ih
        simp only [List.length_cons] at hh ⊢
        omega

theorem lastNlIdx_lt {w : Str} {j : Nat} (h : lastNlIdx w = some j) :
    j < w.length := by
  unfold lastNlIdx at h
  obtain ⟨hne, heq⟩ := List.mem_getLast?_eq_getLast (Option.mem_def.2 h)
  have hmem : j ∈ (List.range w.length).filter (fun i => w.getD i ' ' = '\n') := by
    rw [heq]; exact List.getLast_mem hne
  exact List.mem_range.1 (List.mem_of_mem_filter hmem)

theorem subTripleNlGo_length_le :
    ∀ (fuel : Nat) (l : Str), (subTripleNlGo fuel l).length ≤ l.length := by
  intro fuel
  induction fuel with
  | zero => intro l; exact le_refl _
  | succ n ih =>
    intro l
    cases l with
    | nil => simp [subTripleNlGo]
    | cons c t =>
      rw [subTripleNlGo]
      split
      · cases hj : lastNlIdx (t.takeWhile pyIsSpace) with
        | none =>
          simp only [List.length_cons]
          have := ih t
          omega
        | some j =>
          have hjlt : j < (t.takeWhile pyIsSpace).length := lastNlIdx_lt hj
          have hwt : (t.takeWhile pyIsSpace).length ≤ t.length :=
            (List.takeWhile_prefix _).length_le
          have hrec := ih (t.drop (j + 1))
          simp only [List.length_cons, List.length_drop] at hrec ⊢
          omega
      · simp only [List.length_cons]
        have := ih t
        omega

theorem cleanupWs_length_le (l : Str) : (cleanupWs l).length ≤ l.length := by
  unfold cleanupWs
  calc (pyStrip (collapseSpaces (subTripleNlGo l.length l))).length
      ≤ (collapseSpaces (subTripleNlGo l.length l)).length := pyStrip_length_le _
    _ ≤ (subTripleNlGo l.length l).length := collapseSpaces_length_le _
    _ ≤ l.length := subTripleNlGo_length_le _ _

theorem isPrefixOf_cons_ne {a b : Char} (as bs : Str) (h : a ≠ b) :
    (a :: as).isPrefixOf (b :: bs) = false := by
  show (a == b && as.isPrefixOf bs) = false
  rw [beq_eq_false_iff_ne.2 h]
  rfl

theorem parseMainLoop_step_start (line : Str) (rest : List Str) (inDoc : Bool)
    (cl : List Str) (ct cf : Option Str)
    (h : "<DOCUMENT>".data.isPrefixOf (pyStrip line) = true) :
    parseMainLoop (line :: rest) inDoc cl ct cf =
      parseMainLoop rest true [] none none := by
  rw [parseMainLoop, if_pos h]

theorem parseMainLoop_step_end_keep (line : Str) (rest : List Str)
    (inDoc : Bool) (cl : List Str) (ct cf : Option Str)
    (h1 : "<DOCUMENT>".data.isPrefixOf (pyStrip line) = false)
    (h2 : "</DOCUMENT>".data.isPrefixOf (pyStrip line) = true)
    (hg : (!cl.isEmpty && optTruthy ct) = true) :
    parseMainLoop (line :: rest) inDoc cl ct cf =
      { type := pyOrStr ct "UNKNOWN".data,
        filename := pyOrStr cf "unknown".data,
        content := joinLines cl,
        line_count := (cl.filter (fun l => !(pyStrip l).isEmpty)).length } ::
        parseMainLoop rest false [] none none := by
  rw [parseMainLoop, if_neg (by simp [h1]), if_pos h2, if_pos hg]
  rfl

theorem parseMainLoop_step_type (line : Str) (rest : List Str)
    (cl : List Str) (ct cf : Option Str)
    (h1 : "<DOCUMENT>".data.isPrefixOf (pyStrip line) = false)
    (h2 : "</DOCUMENT>".data.isPrefixOf (pyStrip line) = false)
    (h3 : "<TYPE>".data.isPrefixOf (pyStrip line) = true) :
    parseMainLoop (line :: rest) true cl ct cf =
      parseMainLoop rest true cl (some (tagValue line "<TYPE>".data)) cf := by
  rw [parseMainLoop, if_neg (by simp [h1]), if_neg (by simp [h2]),
    if_neg (by decide), if_pos h3]

theorem parseMainLoop_step_filename (line : Str) (rest : List Str)
    (cl : List Str) (ct cf : Option Str)
    (h1 : "<DOCUMENT>".data.isPrefixOf (pyStrip line) = false)
    (h2 : "</DOCUMENT>".data.isPrefixOf (pyStrip line) = false)
    (h3 : "<TYPE>".data.isPrefixOf (pyStrip line) = false)
    (h4 : "<FILENAME>".data.isPrefixOf (pyStrip line) = true) :
    parseMainLoop (line :: rest) true cl ct cf =
      parseMainLoop rest true cl ct (some (tagValue line "<FILENAME>".data)) := by
  rw [parseMainLoop, if_neg (by simp [h1]), if_neg (by simp [h2]),
    if_neg (by decide), if_neg (by simp [h3]), if_pos h4]

theorem parseMainLoop_step_content (line : Str) (rest : List Str)
    (cl : List Str) (ct cf : Option Str)
    (h1 : "<DOCUMENT>".data.isPrefixOf (pyStrip line) = false)
    (h2 : "</DOCUMENT>".data.isPrefixOf (pyStrip line) = false)
    (h3 : "<TYPE>".data.isPrefixOf (pyStrip line) = false)
    (h4 : "<FILENAME>".data.isPrefixOf (pyStrip line) = false)
    (h5 : ("<".data.isPrefixOf (pyStrip line) && endsWithGt (pyStrip line))
      = false) :
    parseMainLoop (line :: rest) true cl ct cf =
      parseMainLoop rest true (cl ++ [line]) ct cf := by
  rw [parseMainLoop, if_neg (by simp [h1]), if_neg (by simp [h2]),
    if_neg (by decide), if_neg (by simp [h3]), if_neg (by simp [h4]),
    if_neg (by simp [h5])]

theorem parseMainLoop_content_replicate (line : Str)
    (h1 : "<DOCUMENT>".data.isPrefixOf (pyStrip line) = false)
    (h2 : "</DOCUMENT>".data.isPrefixOf (pyStrip line) = false)
    (h3 : "<TYPE>".data.isPrefixOf (pyStrip line) = false)
    (h4 : "<FILENAME>".data.isPrefixOf (pyStrip line) = false)
    (h5 : ("<".data.isPrefixOf (pyStrip line) && endsWithGt (pyStrip line))
      = false) :
    ∀ (n : Nat) (rest : List Str) (cl : List Str) (ct cf : Option Str),
      parseMainLoop (List.replicate n line ++ rest) true cl ct cf =
        parseMainLoop rest true (cl ++ List.replicate n line) ct cf := by
  intro n
  induction n with
  | zero => intro rest cl ct cf; simp
  | succ m ih =>
    intro rest cl ct cf
    rw [List.replicate_succ, List.cons_append,
      parseMainLoop_step_content line _ cl ct cf h1 h2 h3 h4 h5,
      ih rest (cl ++ [line]) ct cf, List.append_assoc, List.singleton_append,
      ← List.replicate_succ]

/-- The markup-file line repeated in the concrete selector inputs. -/
def xlineRep : Str := "x".data

/-- The single large text line of the third concrete document. -/
def ylineCounter : Str := List.replicate 3000 'y'

theorem ylineCounter_cons : ylineCounter = 'y' :: List.replicate 2999 'y' := rfl

theorem ylineCounter_strip : pyStrip ylineCounter = ylineCounter :=
  pyStrip_replicate_nonws 'y' (by decide) 3000

theorem ylineCounter_f1 :
    "<DOCUMENT>".data.isPrefixOf (pyStrip ylineCounter) = false := by
  rw [ylineCounter_strip, ylineCounter_cons,
    show "<DOCUMENT>".data = '<' :: "DOCUMENT>".data from rfl]
  exact isPrefixOf_cons_ne _ _ (by decide)

theorem ylineCounter_f2 :
    "</DOCUMENT>".data.isPrefixOf (pyStrip ylineCounter) = false := by
  rw [ylineCounter_strip, ylineCounter_cons,
    show "</DOCUMENT>".data = '<' :: "/DOCUMENT>".data from rfl]
  exact isPrefixOf_cons_ne _ _ (by decide)

theorem ylineCounter_f3 :
    "<TYPE>".data.isPrefixOf (pyStrip ylineCounter) = false := by
  rw [ylineCounter_strip, ylineCounter_cons,
    show "<TYPE>".data = '<' :: "TYPE>".data from rfl]
  exact isPrefixOf_cons_ne _ _ (by decide)

theorem ylineCounter_f4 :
    "<FILENAME>".data.isPrefixOf (pyStrip ylineCounter) = false := by
  rw [ylineCounter_strip, ylineCounter_cons,
    show "<FILENAME>".data = '<' :: "FILENAME>".data from rfl]
  exact isPrefixOf_cons_ne _ _ (by decide)

theorem ylineCounter_f5 :
    ("<".data.isPrefixOf (pyStrip ylineCounter)
      && endsWithGt (pyStrip ylineCounter)) = false := by
  rw [ylineCounter_strip]
  have h : "<".data.isPrefixOf ylineCounter = false := by
    rw [ylineCounter_cons, show "<".data = '<' :: ([] : Str) from rfl]
    exact isPrefixOf_cons_ne _ _ (by decide)
  rw [h]
  rfl

/-- The concrete counterexample submission: a primary-typed block whose
content is a single empty line, a markup block of 1001 content lines, and a
larger plain block of one 3000-character line. -/
def mainCounterLines : List Str :=
  ["<DOCUMENT>".data, "<TYPE>10-K".data, [], "</DOCUMENT>".data,
   "<DOCUMENT>".data, "<TYPE>EX".data, "<FILENAME>a.htm".data]
  ++ List.replicate 1001 xlineRep
  ++ ["</DOCUMENT>".data, "<DOCUMENT>".data, "<TYPE>EX2".data,
      "<FILENAME>b.txt".data, ylineCounter, "</DOCUMENT>".data]

def mainCounterTxt : Str := joinLines mainCounterLines

def mainCounterD1 : MainDoc :=
  { type := "10-K".data, filename := "unknown".data, content := [],
    line_count := 0 }

def mainCounterD2 : MainDoc :=
  { type := "EX".data, filename := "a.htm".data,
    content := joinLines (List.replicate 1001 xlineRep), line_count := 1001 }

def mainCounterD3 : MainDoc :=
  { type := "EX2".data, filename := "b.txt".data, content := ylineCounter,
    line_count := 1 }

theorem mainCounterLines_no_nl : ∀ l ∈ mainCounterLines, '\n' ∉ l := by
  intro l hl
  unfold mainCounterLines at hl
  rcases List.mem_append.1 hl with h7 | h8
  · rcases List.mem_append.1 h7 with h9 | h10
    · simp only [List.mem_cons, List.not_mem_nil, or_false] at h9
      rcases h9 with rfl | rfl | rfl | rfl | rfl | rfl | rfl <;> decide
    · have := List.eq_of_mem_replicate h10
      subst this
      decide
  · simp only [List.mem_cons, List.not_mem_nil, or_false] at h8
    rcases h8 with rfl | rfl | rfl | rfl | rfl | rfl
    · decide
    · decide
    · decide
    · decide
    · rw [ylineCounter_cons]
      intro hmem
      have := List.eq_of_mem_replicate (List.mem_of_ne_of_mem (by decide) hmem)
      exact absurd this (by decide)
    · decide

theorem mainCounter_parse :
    parseMainDocs mainCounterTxt =
      [mainCounterD1, mainCounterD2, mainCounterD3] := by
  unfold parseMainDocs mainCounterTxt
  rw [splitLines_joinLines mainCounterLines
    (by unfold mainCounterLines; exact List.cons_ne_nil _ _)
    mainCounterLines_no_nl]
  unfold mainCounterLines
  show parseMainLoop ("<DOCUMENT>".data :: "<TYPE>10-K".data :: [] ::
      "</DOCUMENT>".data :: "<DOCUMENT>".data :: "<TYPE>EX".data ::
      "<FILENAME>a.htm".data ::
      (List.replicate 1001 xlineRep ++ ("</DOCUMENT>".data ::
        "<DOCUMENT>".data :: "<TYPE>EX2".data :: "<FILENAME>b.txt".data ::
        ylineCounter :: "</DOCUMENT>".data :: [])))
      false [] none none = [mainCounterD1, mainCounterD2, mainCounterD3]
  have e1 : "<DOCUMENT>".data.isPrefixOf (pyStrip "<DOCUMENT>".data) = true := by
    decide
  have e2a : "<DOCUMENT>".data.isPrefixOf (pyStrip "<TYPE>10-K".data) = false := by
    decide
  have e2b : "</DOCUMENT>".data.isPrefixOf (pyStrip "<TYPE>10-K".data) = false := by
    decide
  have e2c : "<TYPE>".data.isPrefixOf (pyStrip "<TYPE>10-K".data) = true := by
    decide
  have e3a : "<DOCUMENT>".data.isPrefixOf (pyStrip ([] : Str)) = false := by decide
  have e3b : "</DOCUMENT>".data.isPrefixOf (pyStrip ([] : Str)) = false := by decide
  have e3c : "<TYPE>".data.isPrefixOf (pyStrip ([] : Str)) = false := by decide
  have e3d : "<FILENAME>".data.isPrefixOf (pyStrip ([] : Str)) = false := by decide
  have e3e : ("<".data.isPrefixOf (pyStrip ([] : Str))
      && endsWithGt (pyStrip ([] : Str))) = false := by decide
  have e4a : "<DOCUMENT>".data.isPrefixOf (pyStrip "</DOCUMENT>".data) = false := by
    decide
  have e4b : "</DOCUMENT>".data.isPrefixOf (pyStrip "</DOCUMENT>".data) = true := by
    decide
  have e6a : "<DOCUMENT>".data.isPrefixOf (pyStrip "<TYPE>EX".data) = false := by
    decide
  have e6b : "</DOCUMENT>".data.isPrefixOf (pyStrip "<TYPE>EX".data) = false := by
    decide
  have e6c : "<TYPE>".data.isPrefixOf (pyStrip "<TYPE>EX".data) = true := by decide
  have e7a : "<DOCUMENT>".data.isPrefixOf (pyStrip "<FILENAME>a.htm".data)
      = false := by decide
  have e7b : "</DOCUMENT>".data.isPrefixOf (pyStrip "<FILENAME>a.htm".data)
      = false := by decide
  have e7c : "<TYPE>".data.isPrefixOf (pyStrip "<FILENAME>a.htm".data)
      = false := by decide
  have e7d : "<FILENAME>".data.isPrefixOf (pyStrip "<FILENAME>a.htm".data)
      = true := by decide
  have e8a : "<DOCUMENT>".data.isPrefixOf (pyStrip xlineRep) = false := by decide
  have e8b : "</DOCUMENT>".data.isPrefixOf (pyStrip xlineRep) = false := by decide
  have e8c : "<TYPE>".data.isPrefixOf (pyStrip xlineRep) = false := by decide
  have e8d : "<FILENAME>".data.isPrefixOf (pyStrip xlineRep) = false := by decide
  have e8e : ("<".data.isPrefixOf (pyStrip xlineRep)
      && endsWithGt (pyStrip xlineRep)) = false := by decide
  have e11a : "<DOCUMENT>".data.isPrefixOf (pyStrip "<TYPE>EX2".data) = false := by
    decide
  have e11b : "</DOCUMENT>".data.isPrefixOf (pyStrip "<TYPE>EX2".data)
      = false := by decide
  have e11c : "<TYPE>".data.isPrefixOf (pyStrip "<TYPE>EX2".data) = true := by
    decide
  have e12a : "<DOCUMENT>".data.isPrefixOf (pyStrip "<FILENAME>b.txt".data)
      = false := by decide
  have e12b : "</DOCUMENT>".data.isPrefixOf (pyStrip "<FILENAME>b.txt".data)
      = false := by decide
  have e12c : "<TYPE>".data.isPrefixOf (pyStrip "<FILENAME>b.txt".data)
      = false := by decide
  have e12d : "<FILENAME>".data.isPrefixOf (pyStrip "<FILENAME>b.txt".data)
      = true := by decide
  rw [parseMainLoop_step_start _ _ _ _ _ _ e1,
    parseMainLoop_step_type _ _ _ _ _ e2a e2b e2c,
    parseMainLoop_step_content _ _ _ _ _ e3a e3b e3c e3d e3e,
    List.nil_append]
  have hg1 : (!([([] : Str)] : List Str).isEmpty
      && optTruthy (some (tagValue "<TYPE>10-K".data "<TYPE>".data))) = true := by
    decide
  rw [parseMainLoop_step_end_keep _ _ _ _ _ _ e4a e4b hg1,
    parseMainLoop_step_start _ _ _ _ _ _ e1,
    parseMainLoop_step_type _ _ _ _ _ e6a e6b e6c,
    parseMainLoop_step_filename _ _ _ _ _ e7a e7b e7c e7d,
    parseMainLoop_content_replicate xlineRep e8a e8b e8c e8d e8e 1001 _ [] _ _,
    List.nil_append]
  have hg2 : (!(List.replicate 1001 xlineRep).isEmpty
      && optTruthy (some (tagValue "<TYPE>EX".data "<TYPE>".data))) = true := by
    rw [List.replicate_succ]
    decide
  rw [parseMainLoop_step_end_keep _ _ _ _ _ _ e4a e4b hg2,
    parseMainLoop_step_start _ _ _ _ _ _ e1,
    parseMainLoop_step_type _ _ _ _ _ e11a e11b e11c,
    parseMainLoop_step_filename _ _ _ _ _ e12a e12b e12c e12d,
    parseMainLoop_step_content _ _ _ _ _ ylineCounter_f1 ylineCounter_f2
      ylineCounter_f3 ylineCounter_f4 ylineCounter_f5,
    List.nil_append]
  have hg3 : (!([ylineCounter] : List Str).isEmpty
      && optTruthy (some (tagValue "<TYPE>EX2".data "<TYPE>".data))) = true := by
    decide
  rw [parseMainLoop_step_end_keep _ _ _ _ _ _ e4a e4b hg3]
  have hfilt2 : ((List.replicate 1001 xlineRep).filter
      (fun l => !(pyStrip l).isEmpty)) = List.replicate 1001 xlineRep := by
    rw [List.filter_replicate, if_pos (by decide)]
  rw [hfilt2, List.length_replicate]
  have hlc3 : (([ylineCounter] : List Str).filter
      (fun l => !(pyStrip l).isEmpty)).length = 1 := by
    rw [List.filter_cons, ylineCounter_strip]
    rw [show (ylineCounter.isEmpty) = false from rfl]
    rfl
  rw [hlc3]
  rfl

theorem joinLines_replicate_singleton_length (c : Char) :
    ∀ n : Nat, (joinLines (List.replicate (n + 1) [c])).length = 2 * n + 1 := by
  intro n
  induction n with
  | zero => rfl
  | succ m ih =>
    rw [List.replicate_succ, List.replicate_succ, joinLines,
      ← List.replicate_succ]
    · simp only [List.length_append, List.length_cons, List.length_nil]
      omega
    · exact fun h => List.noConfusion h

theorem mainCounterD2_content_length : mainCounterD2.content.length = 2001 := by
  show (joinLines (List.replicate (1000 + 1) ['x'])).length = 2001
  rw [joinLines_replicate_singleton_length 'x' 1000]

/-- C4 counterexample: the concrete submission has its primary-typed
document (type 10-K) with stripped content far under 500 characters, and a
unique .htm document with 1001 non-blank lines — yet the selector returns
the content of the larger non-markup document, because an empty primary
content is falsy and skips the markup fallback entirely; so the claim as
stated is false. -/
theorem selector_counterexample :
    parseMainDocs mainCounterTxt =
        [mainCounterD1, mainCounterD2, mainCounterD3] ∧
    mainCounterD1.type = "10-K".data ∧
    (pyStrip mainCounterD1.content).length < 500 ∧
    ".htm".data.isSuffixOf mainCounterD2.filename = true ∧
    1000 < mainCounterD2.line_count ∧
    (∀ d ∈ parseMainDocs mainCounterTxt,
      ".htm".data.isSuffixOf d.filename = true → d = mainCounterD2) ∧
    extract_main_document_from_txt mainCounterTxt = ylineCounter ∧
    extract_main_document_from_txt mainCounterTxt
      ≠ cleanupWs mainCounterD2.content := by
  have hfind : findMainByType [mainCounterD1, mainCounterD2, mainCounterD3]
      = some [] := by decide
  have hfb : selectFallback [mainCounterD1, mainCounterD2, mainCounterD3]
      (some []) = some [] := by
    unfold selectFallback
    rw [if_neg (by decide)]
  have h12 : (if mainCounterD1.content.length < mainCounterD2.content.length
      then mainCounterD2 else mainCounterD1) = mainCounterD2 :=
    if_pos (by
      rw [mainCounterD2_content_length]
      show (0 : Nat) < 2001
      omega)
  have h23 : (if mainCounterD2.content.length < mainCounterD3.content.length
      then mainCounterD3 else mainCounterD2) = mainCounterD3 :=
    if_pos (by
      rw [mainCounterD2_content_length]
      show (2001 : Nat) < (List.replicate 3000 'y').length
      rw [List.length_replicate]
      omega)
  have hmax : maxByNat? (fun d => d.content.length)
      [mainCounterD1, mainCounterD2, mainCounterD3] = some mainCounterD3 := by
    show some (List.foldl
        (fun best y => if best.content.length < y.content.length then y else best)
        mainCounterD1 [mainCounterD2, mainCounterD3]) = some mainCounterD3
    simp only [List.foldl_cons, List.foldl_nil]
    rw [h12, h23]
  have hsl : selectLargest [mainCounterD1, mainCounterD2, mainCounterD3]
      (some []) = some ylineCounter := by
    unfold selectLargest
    rw [if_pos (by decide), if_pos (by decide), hmax]
    rfl
  have hext : extract_main_document_from_txt mainCounterTxt
      = cleanupWs ylineCounter := by
    unfold extract_main_document_from_txt
    rw [mainCounter_parse]
    unfold selectMainContent
    rw [hfind, hfb, hsl]
    show (if ylineCounter.isEmpty then [] else cleanupWs ylineCounter) = _
    rw [show ylineCounter.isEmpty = false from rfl]
    simp
  have hynl : '\n' ∉ ylineCounter := by
    rw [ylineCounter_cons]
    intro hmem
    have := List.eq_of_mem_replicate (List.mem_of_ne_of_mem (by decide) hmem)
    exact absurd this (by decide)
  have hysp : ' ' ∉ ylineCounter := by
    rw [ylineCounter_cons]
    intro hmem
    have := List.eq_of_mem_replicate (List.mem_of_ne_of_mem (by decide) hmem)
    exact absurd this (by decide)
  have hclean : cleanupWs ylineCounter = ylineCounter :=
    cleanupWs_no_specials ylineCounter hynl hysp ylineCounter_strip
  have hext2 : extract_main_document_from_txt mainCounterTxt = ylineCounter := by
    rw [hext, hclean]
  refine ⟨mainCounter_parse, rfl, by decide, by decide, by decide, ?_, hext2, ?_⟩
  · intro d hd hsuf
    rw [mainCounter_parse] at hd
    rcases List.mem_cons.1 hd with rfl | hd2
    · exact absurd hsuf (by decide)
    · rcases List.mem_cons.1 hd2 with rfl | hd3
      · rfl
      · rcases List.mem_cons.1 hd3 with rfl | hd4
        · exact absurd hsuf (by decide)
        · simp at hd4
  · rw [hext2]
    intro he
    have h1 : (cleanupWs mainCounterD2.content).length ≤ 2001 := by
      have := cleanupWs_length_le mainCounterD2.content
      rw [mainCounterD2_content_length] at this
      exact this
    have h2 : ylineCounter.length = 3000 := List.length_replicate _ _
    rw [← he] at h1
    omega

/-- The concrete witness submission: a primary-typed block with a short but
nonempty content line, and a markup block of 1001 content lines. -/
def mainWitnessLines : List Str :=
  ["<DOCUMENT>".data, "<TYPE>10-K".data, "tiny".data, "</DOCUMENT>".data,
   "<DOCUMENT>".data, "<TYPE>EX".data, "<FILENAME>a.htm".data]
  ++ List.replicate 1001 xlineRep
  ++ ["</DOCUMENT>".data]

def mainWitnessTxt : Str := joinLines mainWitnessLines

def mainWitnessD1 : MainDoc :=
  { type := "10-K".data, filename := "unknown".data, content := "tiny".data,
    line_count := 1 }

theorem mainWitnessLines_no_nl : ∀ l ∈ mainWitnessLines, '\n' ∉ l := by
  intro l hl
  unfold mainWitnessLines at hl
  rcases List.mem_append.1 hl with h7 | h8
  · rcases List.mem_append.1 h7 with h9 | h10
    · simp only [List.mem_cons, List.not_mem_nil, or_false] at h9
      rcases h9 with rfl | rfl | rfl | rfl | rfl | rfl | rfl <;> decide
    · have := List.eq_of_mem_replicate h10
      subst this
      decide
  · simp only [List.mem_cons, List.not_mem_nil, or_false] at h8
    subst h8
    decide

theorem mainWitness_parse :
    parseMainDocs mainWitnessTxt = [mainWitnessD1, mainCounterD2] := by
  unfold parseMainDocs mainWitnessTxt
  rw [splitLines_joinLines mainWitnessLines
    (by unfold mainWitnessLines; exact List.cons_ne_nil _ _)
    mainWitnessLines_no_nl]
  unfold mainWitnessLines
  show parseMainLoop ("<DOCUMENT>".data :: "<TYPE>10-K".data :: "tiny".data ::
      "</DOCUMENT>".data :: "<DOCUMENT>".data :: "<TYPE>EX".data ::
      "<FILENAME>a.htm".data ::
      (List.replicate 1001 xlineRep ++ ("</DOCUMENT>".data :: [])))
      false [] none none = [mainWitnessD1, mainCounterD2]
  have e1 : "<DOCUMENT>".data.isPrefixOf (pyStrip "<DOCUMENT>".data) = true := by
    decide
  have e2a : "<DOCUMENT>".data.isPrefixOf (pyStrip "<TYPE>10-K".data) = false := by
    decide
  have e2b : "</DOCUMENT>".data.isPrefixOf (pyStrip "<TYPE>10-K".data) = false := by
    decide
  have e2c : "<TYPE>".data.isPrefixOf (pyStrip "<TYPE>10-K".data) = true := by
    decide
  have e3a : "<DOCUMENT>".data.isPrefixOf (pyStrip "tiny".data) = false := by decide
  have e3b : "</DOCUMENT>".data.isPrefixOf (pyStrip "tiny".data) = false := by
    decide
  have e3c : "<TYPE>".data.isPrefixOf (pyStrip "tiny".data) = false := by decide
  have e3d : "<FILENAME>".data.isPrefixOf (pyStrip "tiny".data) = false := by
    decide
  have e3e : ("<".data.isPrefixOf (pyStrip "tiny".data)
      && endsWithGt (pyStrip "tiny".data)) = false := by decide
  have e4a : "<DOCUMENT>".data.isPrefixOf (pyStrip "</DOCUMENT>".data) = false := by
    decide
  have e4b : "</DOCUMENT>".data.isPrefixOf (pyStrip "</DOCUMENT>".data) = true := by
    decide
  have e6a : "<DOCUMENT>".data.isPrefixOf (pyStrip "<TYPE>EX".data) = false := by
    decide
  have e6b : "</DOCUMENT>".data.isPrefixOf (pyStrip "<TYPE>EX".data) = false := by
    decide
  have e6c : "<TYPE>".data.isPrefixOf (pyStrip "<TYPE>EX".data) = true := by decide
  have e7a : "<DOCUMENT>".data.isPrefixOf (pyStrip "<FILENAME>a.htm".data)
      = false := by decide
  have e7b : "</DOCUMENT>".data.isPrefixOf (pyStrip "<FILENAME>a.htm".data)
      = false := by decide
  have e7c : "<TYPE>".data.isPrefixOf (pyStrip "<FILENAME>a.htm".data)
      = false := by decide
  have e7d : "<FILENAME>".data.isPrefixOf (pyStrip "<FILENAME>a.htm".data)
      = true := by decide
  have e8a : "<DOCUMENT>".data.isPrefixOf (pyStrip xlineRep) = false := by decide
  have e8b : "</DOCUMENT>".data.isPrefixOf (pyStrip xlineRep) = false := by decide
  have e8c : "<TYPE>".data.isPrefixOf (pyStrip xlineRep) = false := by decide
  have e8d : "<FILENAME>".data.isPrefixOf (pyStrip xlineRep) = false := by decide
  have e8e : ("<".data.isPrefixOf (pyStrip xlineRep)
      && endsWithGt (pyStrip xlineRep)) = false := by decide
  rw [parseMainLoop_step_start _ _ _ _ _ _ e1,
    parseMainLoop_step_type _ _ _ _ _ e2a e2b e2c,
    parseMainLoop_step_content _ _ _ _ _ e3a e3b e3c e3d e3e,
    List.nil_append]
  have hg1 : (!(["tiny".data] : List Str).isEmpty
      && optTruthy (some (tagValue "<TYPE>10-K".data "<TYPE>".data))) = true := by
    decide
  rw [parseMainLoop_step_end_keep _ _ _ _ _ _ e4a e4b hg1,
    parseMainLoop_step_start _ _ _ _ _ _ e1,
    parseMainLoop_step_type _ _ _ _ _ e6a e6b e6c,
    parseMainLoop_step_filename _ _ _ _ _ e7a e7b e7c e7d,
    parseMainLoop_content_replicate xlineRep e8a e8b e8c e8d e8e 1001 _ [] _ _,
    List.nil_append]
  have hg2 : (!(List.replicate 1001 xlineRep).isEmpty
      && optTruthy (some (tagValue "<TYPE>EX".data "<TYPE>".data))) = true := by
    rw [List.replicate_succ]
    decide
  rw [parseMainLoop_step_end_keep _ _ _ _ _ _ e4a e4b hg2]
  have hfilt2 : ((List.replicate 1001 xlineRep).filter
      (fun l => !(pyStrip l).isEmpty)) = List.replicate 1001 xlineRep := by
    rw [List.filter_replicate, if_pos (by decide)]
  rw [hfilt2, List.length_replicate]
  rfl

/-- C4 witness: on the concrete witness submission the amended theorem
applies and produces the markup document. -/
theorem placeholder_selector_prefers_markup_witness :
    ∃ d ∈ parseMainDocs mainWitnessTxt,
      ".htm".data.isSuffixOf d.filename = true ∧ 1000 < d.line_count ∧
      extract_main_document_from_txt mainWitnessTxt = cleanupWs d.content :=
  placeholder_selector_prefers_markup mainWitnessTxt "tiny".data
    (by rw [mainWitness_parse]; decide)
    (by decide)
    (by decide)
    ⟨mainCounterD2,
     by rw [mainWitness_parse]; exact List.mem_cons_of_mem _ (List.mem_cons_self _ _),
     by decide,
     by decide⟩
